import Mathlib

/-!
# Verification of the workflow orchestration engine

Shallow embedding of the LangGraph-based multi-agent control plane
(`backend/core/langgraph_mcp.py`), the stage-executor adapters
(`backend/agents/base_agent.py`, `backend/agents/langchain_agents.py`),
the vector-store statistics endpoint (`backend/core/vectorstore.py`)
and the session registry (`backend/agents/mcp.py`).

Python dict-based state is embedded as Lean structures; `time.time()`
reads are supplied by an environment clock indexed by a read counter;
each external agent call is supplied by an environment oracle giving
either the agent's result or the exception it raised (`Except`).
-/

/-- One entry of `processing_steps`, as built by
`LangGraphMCP._update_step`: `{"step": step, "message": message,
"timestamp": time.time(), "status": "active" if step < 8 else "completed"}`. -/
structure StepInfo where
  step : Nat
  message : String
  timestamp : ℚ
  status : String
deriving Repr, DecidableEq

/-- The result record built by `_finalize_result` (fields used by the spec). -/
structure FinalResult where
  query : String
  intent : String
  input_type : String
  research : String
  summary : String
  key_points : List String
  word_count : Nat
  confidence : ℚ
  quality_score : ℚ
  processing_time : ℚ
  steps : List StepInfo
deriving Repr, DecidableEq

/-- The `AgentState` from `langgraph_mcp.py`: the workflow state TypedDict.
Every key is initialized by `process_query`, so the `.get(key, default)`
reads in the source always see a present key; fields are therefore total.
`final_result` is `{}` before Finalize in the source; we embed the
not-yet-finalized `{}` as `none`. -/
structure AgentState where
  query : String
  session_id : String
  input_type : String
  file_path : Option String
  enable_tts : Bool
  intent : String
  confidence : ℚ
  entities : List String
  context : List (String × String)
  research_content : String
  comparison_result : String
  vision_result : String
  ocr_result : String
  transcription : String
  retrieved_content : String
  summary : String
  key_points : List String
  quality_score : ℚ
  needs_improvement : Bool
  retry_count : Nat
  final_result : Option FinalResult
  audio_file : Option String
  processing_steps : List StepInfo
  start_time : ℚ
  current_step : Nat
deriving Repr, DecidableEq

/-- Statistics record returned by `VectorStore.get_stats`. -/
structure VectorStats where
  total_documents : Nat
  collection_name : String
deriving Repr, DecidableEq

namespace VectorStore

/-- The `VectorStore.get_stats` (`vectorstore.py`): returns
`{"total_documents": collection.count(), "collection_name": name}`, and on
any exception returns `{"total_documents": 0, "collection_name": "unknown"}`.
The outcome of `collection.count()` is supplied as an `Except`. -/
def get_stats (name : String) (countOutcome : Except String Nat) : VectorStats :=
  match countOutcome with
  | .ok n => { total_documents := n, collection_name := name }
  | .error _ => { total_documents := 0, collection_name := "unknown" }

end VectorStore

/-- The nodes of the workflow graph (`_build_workflow`), plus `done` for the
terminal `END` marker. -/
inductive Node where
  | preprocess
  | intent_classification
  | multimodal_processing
  | research
  | compare
  | retrieve
  | summarize
  | critique
  | tts
  | finalize
  | done
deriving Repr, DecidableEq

/-- The `_route_after_intent`: pure routing logic over the state snapshot and the
vector-store statistics it queries (`self.vector_store.get_stats()`). -/
def route_after_intent (s : AgentState) (stats : VectorStats) : String :=
  if s.input_type ∈ ["image", "audio", "document"] then "multimodal"
  else if s.intent = "compare" then "compare"
  else if s.intent ∈ ["summarize", "research", "explain", "analyze"] then
    if stats.total_documents > 0 then "retrieve" else "research"
  else "research"

/-- The `_should_critique`. -/
def should_critique (s : AgentState) : String :=
  if s.retry_count < 2 then "critique"
  else if s.enable_tts then "tts"
  else "finalize"

/-- The `_handle_critique_result`: note that the source MUTATES the state
(`state["retry_count"] = state.get("retry_count", 0) + 1`) before returning
the label, so the embedding returns the label together with the updated state. -/
def handle_critique_result (s : AgentState) : String × AgentState :=
  if s.needs_improvement ∧ s.retry_count < 1 then
    ("retry", { s with retry_count := s.retry_count + 1 })
  else if s.enable_tts then ("tts", s)
  else ("finalize", s)

/-- The `_should_finalize`. -/
def should_finalize (_ : AgentState) : String := "finalize"

/-- The conditional-edge dictionary attached to `intent_classification` in
`_build_workflow`. -/
def intentEdge : String → Option Node
  | "multimodal" => some .multimodal_processing
  | "research" => some .research
  | "compare" => some .compare
  | "retrieve" => some .retrieve
  | "summarize" => some .summarize
  | _ => none

/-- The conditional-edge dictionary attached to `summarize`. -/
def summarizeEdge : String → Option Node
  | "critique" => some .critique
  | "tts" => some .tts
  | "finalize" => some .finalize
  | _ => none

/-- The conditional-edge dictionary attached to `critique`
(`"retry"` loops back to the `research` node). -/
def critiqueEdge : String → Option Node
  | "retry" => some .research
  | "tts" => some .tts
  | "finalize" => some .finalize
  | _ => none

/-- Follow a conditional-edge dictionary. A label missing from the dictionary
would be a fatal routing error in langgraph; it never occurs (the routing
functions only emit mapped labels), and we default to `done` for totality. -/
def followEdge (m : String → Option Node) (lbl : String) : Node :=
  (m lbl).getD .done

/-- The graph-level successor of `intent_classification`: the node selected by
`_route_after_intent` through its conditional-edge dictionary. -/
def routeAfterIntentNode (s : AgentState) (stats : VectorStats) : Node :=
  followEdge intentEdge (route_after_intent s stats)

/-- Mutable bookkeeping of a `BaseAgent` (`base_agent.py`): `name`, `status`
and `last_activity`. -/
structure BaseAgentRec where
  name : String
  status : String
  last_activity : ℚ
deriving Repr, DecidableEq

namespace BaseAgent

/-- The `BaseAgent.execute` (`base_agent.py`): sets `status := "running"` and
`last_activity := time.time()`, then awaits `self.process(input_data)` — whose
outcome (result or raised exception) is supplied as an `Except`. On success it
sets `status := "completed"` and returns the result; on an exception it sets
`status := "error"`, logs, and RE-RAISES the exception (`raise e`), which the
embedding renders as returning the `Except.error`. -/
def execute {α : Type} (a : BaseAgentRec) (now : ℚ)
    (processOutcome : Except String α) : BaseAgentRec × Except String α :=
  let a' : BaseAgentRec := { a with status := "running", last_activity := now }
  match processOutcome with
  | .ok r => ({ a' with status := "completed" }, .ok r)
  | .error e => ({ a' with status := "error" }, .error e)

end BaseAgent

namespace BaseLangChainAgent

/-- The `BaseLangChainAgent.execute` (`langchain_agents.py`): awaits
`self._process(input_data)`, logging around it; it tracks no status field, and
on an exception it logs and re-raises (`raise e`): the outcome is passed
through unchanged. -/
def execute {α : Type} (processOutcome : Except String α) : Except String α :=
  processOutcome

end BaseLangChainAgent

/-- One entry of the session registry (`self.sessions[session_id]` in
`mcp.py` / `langgraph_mcp.py`): status, start time, recorded steps, current
step, and the optional result/error payloads added at completion. -/
structure SessionEntry where
  status : String
  start_time : ℚ
  steps : List StepInfo
  current_step : Nat
  result : Option String
  error : Option String
deriving Repr, DecidableEq

/-- The value returned by the session query surface: the session record
itself, a `{"message": ...}` acknowledgement, or the
`{"error": "Session not found"}` indicator. All three are ordinary return
values in the source — never exceptions. -/
inductive SessionResponse where
  | status (s : SessionEntry)
  | message (m : String)
  | errorIndicator (m : String)
deriving Repr, DecidableEq

/-- The registry is a Python dict keyed by session id; embedded as an
association list. -/
abbrev Sessions : Type := List (String × SessionEntry)

/-- Python dict lookup (`session_id in self.sessions` followed by
`self.sessions[session_id]`) over the association-list embedding of the
registry. -/
def findSession (sessions : Sessions) (sid : String) : Option SessionEntry :=
  match sessions with
  | [] => none
  | (k, e) :: t => if sid = k then some e else findSession t sid

namespace MultiAgentControlPlane

/-- The `MultiAgentControlPlane.get_session_status` (`mcp.py`): if the id is
unknown return `{"error": "Session not found"}`, else return the session
record. -/
def get_session_status (sessions : Sessions) (sid : String) : SessionResponse :=
  match findSession sessions sid with
  | some entry => .status entry
  | none => .errorIndicator "Session not found"

/-- The `MultiAgentControlPlane.cancel_session` (`mcp.py`): if the id is present,
set that session's `status` to `"cancelled"` (touching nothing else) and
return `{"message": "Session cancelled"}`; otherwise return
`{"error": "Session not found"}`. Returns the updated registry together with
the response. -/
def cancel_session (sessions : Sessions) (sid : String) :
    Sessions × SessionResponse :=
  match findSession sessions sid with
  | some _ =>
    (sessions.map (fun p =>
        (p.1, if p.1 = sid then { p.2 with status := "cancelled" } else p.2)),
      .message "Session cancelled")
  | none => (sessions, .errorIndicator "Session not found")

end MultiAgentControlPlane

namespace LangGraphMCP

/-- The `LangGraphMCP.get_session_status` (`langgraph_mcp.py`): identical
not-found convention to the `mcp.py` registry. -/
def get_session_status (sessions : Sessions) (sid : String) : SessionResponse :=
  match findSession sessions sid with
  | some entry => .status entry
  | none => .errorIndicator "Session not found"

end LangGraphMCP

/-- The environment of one `process_query` run: the clock (successive
`time.time()` reads, indexed by read number) and the outcome — result or
raised exception — of every collaborator call the workflow can make. Agents
that can be invoked more than once in a run (research, summarize, critique,
via the retry loop) are indexed by invocation number. -/
structure Env where
  clock : Nat → ℚ
  statsCount : Except String Nat
  intentOutcome : Except String (String × ℚ × List String)
  visionOutcome : Except String String
  ocrOutcome : Except String String
  sttOutcome : Except String String
  docOutcome : Except String String
  researchOutcome : Nat → Except String String
  compareOutcome : Except String String
  retrieveOutcome : Except String String
  summarizeOutcome : Nat → Except String (String × List String)
  critiqueOutcome : Nat → Except String (ℚ × Bool)
  ttsOutcome : Except String (Option String)

/-- Execution record threaded through the graph: the workflow state, the
number of `time.time()` reads so far, per-agent invocation counters (indices
into the `Env` oracles), and a ghost log `contentWrites` naming each content
field a branch node assigns (used only to state the C7 claim; no source
behavior depends on it). -/
structure Exec where
  state : AgentState
  tick : Nat
  nResearch : Nat
  nSummarize : Nat
  nCritique : Nat
  contentWrites : List String
deriving Repr, DecidableEq

/-- The `_update_step`: append a `{step, message, timestamp, status}` record to
`processing_steps` (status `"active"` for steps below 8, `"completed"` at 8)
and set `current_step`. The session-registry mirroring it also performs is a
write to the shared registry modeled separately. -/
def updateStep (e : Env) (x : Exec) (message : String) (step : Nat) : Exec :=
  let info : StepInfo :=
    { step := step, message := message, timestamp := e.clock x.tick,
      status := if step < 8 then "active" else "completed" }
  { x with
      state := { x.state with
        processing_steps := x.state.processing_steps ++ [info],
        current_step := step },
      tick := x.tick + 1 }

/-- Extensions recognized as images in `_preprocess_input`. -/
def imageExts : List String := [".png", ".jpg", ".jpeg", ".gif", ".bmp"]

/-- Extensions recognized as audio in `_preprocess_input`. -/
def audioExts : List String := [".wav", ".mp3", ".m4a", ".flac"]

/-- Extensions recognized as documents in `_preprocess_input`. -/
def documentExts : List String := [".pdf", ".docx", ".txt"]

/-- The `file_path.lower().endswith(tuple_of_exts)`. -/
def endsWithAny (s : String) (exts : List String) : Bool :=
  exts.any (fun e => s.endsWith e)

/-- The `_preprocess_input`: records step 1, classifies the input type from the
file extension, then initializes the processing metadata — NOTE the source
sets `processing_steps = []` AFTER `_update_step` already appended the step-1
entry, erasing it. -/
def preprocessNode (e : Env) (x : Exec) : Exec :=
  let x := updateStep e x "Preprocessing input..." 1
  let s := x.state
  let s :=
    match s.file_path with
    | some fp =>
      if endsWithAny fp.toLower imageExts then { s with input_type := "image" }
      else if endsWithAny fp.toLower audioExts then
        { s with input_type := "audio" }
      else if endsWithAny fp.toLower documentExts then
        { s with input_type := "document" }
      else { s with input_type := "unknown" }
    | none => { s with input_type := "text" }
  let s := { s with
    start_time := e.clock x.tick, processing_steps := [],
    current_step := 1, retry_count := 0 }
  { x with state := s, tick := x.tick + 1 }

/-- The `_classify_intent`: records step 2 and queries the intent agent; on an
exception falls back to intent `"general"`, confidence `0.5`, no entities. -/
def classifyIntentNode (e : Env) (x : Exec) : Exec :=
  let x := updateStep e x "Understanding your query..." 2
  match e.intentOutcome with
  | .ok r =>
    { x with state := { x.state with
        intent := r.1, confidence := r.2.1, entities := r.2.2 } }
  | .error _ =>
    { x with state := { x.state with
        intent := "general", confidence := 1 / 2, entities := [] } }

/-- The `_process_multimodal`: image branch runs vision then OCR (each failure
degraded to `""`), combines them into `research_content`; audio branch
transcribes (failure text on exception) and overwrites `query` with the
transcription on success; document branch extracts text (the extractor's
outcome, the chunking and the vector-store `add_documents` write are
collaborator effects summarized by `docOutcome`), with an explanatory
`research_content` on failure. Any other `input_type` falls through
unchanged. -/
def processMultimodalNode (e : Env) (x : Exec) : Exec :=
  let it := x.state.input_type
  let fp := (x.state.file_path.getD "").toLower
  if it = "image" then
    let x := updateStep e x "Analyzing image..." 3
    let s := x.state
    let s :=
      match e.visionOutcome with
      | .ok v => { s with vision_result := v }
      | .error _ => { s with vision_result := "" }
    let s :=
      match e.ocrOutcome with
      | .ok v => { s with ocr_result := v }
      | .error _ => { s with ocr_result := "" }
    let combined :=
      (if s.vision_result ≠ "" then
        "Image Analysis: " ++ s.vision_result ++ "\n\n" else "") ++
      (if s.ocr_result ≠ "" then
        "Extracted Text: " ++ s.ocr_result ++ "\n\n" else "")
    { x with
        state := { s with research_content := combined },
        contentWrites := x.contentWrites ++
          ["vision_result", "ocr_result", "research_content"] }
  else if it = "audio" then
    let x := updateStep e x "Transcribing audio..." 3
    match e.sttOutcome with
    | .ok t =>
      { x with
          state := { x.state with transcription := t, query := t },
          contentWrites := x.contentWrites ++ ["transcription"] }
    | .error _ =>
      { x with
          state := { x.state with
            transcription := "Failed to transcribe audio" },
          contentWrites := x.contentWrites ++ ["transcription"] }
  else if it = "document" then
    let x := updateStep e x "Processing document..." 3
    match e.docOutcome with
    | .ok content =>
      let content :=
        if fp.endsWith ".pdf" ∨ fp.endsWith ".docx" ∨ fp.endsWith ".txt" then
          content
        else "Unsupported document format"
      { x with
          state := { x.state with research_content := content },
          contentWrites := x.contentWrites ++ ["research_content"] }
    | .error err =>
      { x with
          state := { x.state with
            research_content := "Failed to process document: " ++ err },
          contentWrites := x.contentWrites ++ ["research_content"] }
  else x

/-- The `_research`: records step 4 and queries the research agent (the memory
context read feeds only the agent prompt, folded into the oracle); an
exception degrades to an explanatory `research_content`. -/
def researchNode (e : Env) (x : Exec) : Exec :=
  let x := updateStep e x "Researching information..." 4
  let r := e.researchOutcome x.nResearch
  let x := { x with nResearch := x.nResearch + 1 }
  match r with
  | .ok content =>
    { x with
        state := { x.state with research_content := content },
        contentWrites := x.contentWrites ++ ["research_content"] }
  | .error err =>
    { x with
        state := { x.state with
          research_content := "Research failed: " ++ err },
        contentWrites := x.contentWrites ++ ["research_content"] }

/-- The `_compare`: records step 4; on success or failure writes both
`comparison_result` and `research_content` (the latter reused for
summarization). -/
def compareNode (e : Env) (x : Exec) : Exec :=
  let x := updateStep e x "Comparing entities..." 4
  match e.compareOutcome with
  | .ok r =>
    { x with
        state := { x.state with
          comparison_result := r, research_content := r },
        contentWrites := x.contentWrites ++
          ["comparison_result", "research_content"] }
  | .error err =>
    { x with
        state := { x.state with
          comparison_result := "Comparison failed: " ++ err,
          research_content := "Comparison failed: " ++ err },
        contentWrites := x.contentWrites ++
          ["comparison_result", "research_content"] }

/-- The `_retrieve`: records step 4; writes `retrieved_content` and mirrors it
into `research_content`, with an explanatory fallback on exception. -/
def retrieveNode (e : Env) (x : Exec) : Exec :=
  let x := updateStep e x "Searching knowledge base..." 4
  match e.retrieveOutcome with
  | .ok r =>
    { x with
        state := { x.state with
          retrieved_content := r, research_content := r },
        contentWrites := x.contentWrites ++
          ["retrieved_content", "research_content"] }
  | .error err =>
    { x with
        state := { x.state with
          retrieved_content := "Retrieval failed: " ++ err,
          research_content := "Retrieval failed: " ++ err },
        contentWrites := x.contentWrites ++
          ["retrieved_content", "research_content"] }

/-- The `_summarize`: records step 5; writes `summary` and `key_points`, degraded
to an explanatory summary and `[]` on exception. -/
def summarizeNode (e : Env) (x : Exec) : Exec :=
  let x := updateStep e x "Analyzing and summarizing..." 5
  let r := e.summarizeOutcome x.nSummarize
  let x := { x with nSummarize := x.nSummarize + 1 }
  match r with
  | .ok p =>
    { x with state := { x.state with summary := p.1, key_points := p.2 } }
  | .error err =>
    { x with state := { x.state with
        summary := "Summarization failed: " ++ err, key_points := [] } }

/-- The `_critique`: records step 6; writes `quality_score` and
`needs_improvement`, degraded to `7.0` / `false` on exception. -/
def critiqueNode (e : Env) (x : Exec) : Exec :=
  let x := updateStep e x "Evaluating response quality..." 6
  let r := e.critiqueOutcome x.nCritique
  let x := { x with nCritique := x.nCritique + 1 }
  match r with
  | .ok p =>
    { x with state := { x.state with
        quality_score := p.1, needs_improvement := p.2 } }
  | .error _ =>
    { x with state := { x.state with
        quality_score := 7, needs_improvement := false } }

/-- The `needs_improvement` value the `_critique` node stores for a given
critique-agent outcome (the degraded value is `false`). -/
def effectiveNeedsImprovement (o : Except String (ℚ × Bool)) : Bool :=
  match o with
  | .ok p => p.2
  | .error _ => false

/-- The `_text_to_speech`: only acts when `enable_tts`; records step 7 and writes
`audio_file` (`""` on a missing key or an exception). -/
def textToSpeechNode (e : Env) (x : Exec) : Exec :=
  if x.state.enable_tts then
    let x := updateStep e x "Generating audio..." 7
    match e.ttsOutcome with
    | .ok af =>
      { x with state := { x.state with audio_file := some (af.getD "") } }
    | .error _ =>
      { x with state := { x.state with audio_file := some "" } }
  else x

/-- Python `str.split()` word count (`len(summary.split())`), approximated on
single-space separators. -/
def wordCount (s : String) : Nat :=
  ((s.splitOn " ").filter (fun w => w ≠ "")).length

/-- The `_finalize_result`: records step 8 ("Complete", status `"completed"`),
computes the processing time from a fresh clock read, and builds
`final_result` (the memory-manager write at the end is an external effect
nothing later reads). -/
def finalizeNode (e : Env) (x : Exec) : Exec :=
  let x := updateStep e x "Complete" 8
  let s := x.state
  let fr : FinalResult :=
    { query := s.query, intent := s.intent, input_type := s.input_type,
      research := s.research_content, summary := s.summary,
      key_points := s.key_points, word_count := wordCount s.summary,
      confidence := s.confidence, quality_score := s.quality_score,
      processing_time := e.clock x.tick - s.start_time,
      steps := s.processing_steps }
  { x with state := { s with final_result := some fr }, tick := x.tick + 1 }

/-- The conditional-edge dictionary attached to `tts`. -/
def ttsEdge : String → Option Node
  | "finalize" => some .finalize
  | _ => none

/-- One step of the graph engine: execute the current node on the execution
record, then follow the node's outgoing edge — unconditional edges as wired
by `_build_workflow`, conditional edges by evaluating the routing function on
the node's output state through its edge dictionary. `done` (END) is
absorbing. -/
def stepConfig (e : Env) : Node × Exec → Node × Exec
  | (.preprocess, x) => (.intent_classification, preprocessNode e x)
  | (.intent_classification, x) =>
    let x := classifyIntentNode e x
    let stats := VectorStore.get_stats "documents" e.statsCount
    (followEdge intentEdge (route_after_intent x.state stats), x)
  | (.multimodal_processing, x) => (.summarize, processMultimodalNode e x)
  | (.research, x) => (.summarize, researchNode e x)
  | (.compare, x) => (.summarize, compareNode e x)
  | (.retrieve, x) => (.summarize, retrieveNode e x)
  | (.summarize, x) =>
    let x := summarizeNode e x
    (followEdge summarizeEdge (should_critique x.state), x)
  | (.critique, x) =>
    let x := critiqueNode e x
    let r := handle_critique_result x.state
    (followEdge critiqueEdge r.1, { x with state := r.2 })
  | (.tts, x) =>
    let x := textToSpeechNode e x
    (followEdge ttsEdge (should_finalize x.state), x)
  | (.finalize, x) => (.done, finalizeNode e x)
  | (.done, x) => (.done, x)

/-- The initial `AgentState` literal built by `process_query` (its
`start_time` is the second `time.time()` read; the first initializes the
session-registry entry). -/
def initialState (query session_id : String) (enable_tts : Bool)
    (file_path : Option String) (startTime : ℚ) : AgentState :=
  { query := query, session_id := session_id, input_type := "text",
    file_path := file_path, enable_tts := enable_tts,
    intent := "", confidence := 0, entities := [], context := [],
    research_content := "", comparison_result := "", vision_result := "",
    ocr_result := "", transcription := "", retrieved_content := "",
    summary := "", key_points := [], quality_score := 0,
    needs_improvement := false, retry_count := 0, final_result := none,
    audio_file := none, processing_steps := [], start_time := startTime,
    current_step := 0 }

/-- Initial configuration of a `process_query` run. -/
def initConfig (e : Env) (query session_id : String) (enable_tts : Bool)
    (file_path : Option String) : Node × Exec :=
  (.preprocess,
    { state := initialState query session_id enable_tts file_path (e.clock 1),
      tick := 2, nResearch := 0, nSummarize := 0, nCritique := 0,
      contentWrites := [] })

/-- The configuration after `k` engine steps of a run. -/
def cfg (e : Env) (query session_id : String) (enable_tts : Bool)
    (file_path : Option String) (k : Nat) : Node × Exec :=
  (stepConfig e)^[k] (initConfig e query session_id enable_tts file_path)

/-- Upper bound on the number of engine steps left to reach `done` from a
node, given the current `retry_count` (used for the termination argument). -/
def nodeBound : Node → Nat → Nat
  | .done, _ => 0
  | .finalize, _ => 1
  | .tts, _ => 2
  | .critique, r => if r = 0 then 6 else 3
  | .summarize, r => if r = 0 then 7 else 4
  | .research, r => if r = 0 then 8 else 5
  | .compare, r => if r = 0 then 8 else 5
  | .retrieve, r => if r = 0 then 8 else 5
  | .multimodal_processing, r => if r = 0 then 8 else 5
  | .intent_classification, _ => 9
  | .preprocess, _ => 10

/-- Reachability invariant of the engine: the critique-invocation counter
tracks `retry_count` before/at the critique node (each completed critique pass
either bumped the retry counter or exited the loop), is one ahead of it after
the loop exits, and `retry_count` never exceeds the retry limit 1. -/
def EngineInv (c : Node × Exec) : Prop :=
  match c.1 with
  | .preprocess => c.2.state.retry_count = 0 ∧ c.2.nCritique = 0
  | .intent_classification => c.2.state.retry_count = 0 ∧ c.2.nCritique = 0
  | .multimodal_processing => c.2.state.retry_count = 0 ∧ c.2.nCritique = 0
  | .compare => c.2.state.retry_count = 0 ∧ c.2.nCritique = 0
  | .retrieve => c.2.state.retry_count = 0 ∧ c.2.nCritique = 0
  | .research =>
    c.2.nCritique = c.2.state.retry_count ∧ c.2.state.retry_count ≤ 1
  | .summarize =>
    c.2.nCritique = c.2.state.retry_count ∧ c.2.state.retry_count ≤ 1
  | .critique =>
    c.2.nCritique = c.2.state.retry_count ∧ c.2.state.retry_count ≤ 1
  | .tts =>
    c.2.nCritique = c.2.state.retry_count + 1 ∧ c.2.state.retry_count ≤ 1
  | .finalize =>
    c.2.nCritique = c.2.state.retry_count + 1 ∧ c.2.state.retry_count ≤ 1
  | .done =>
    c.2.nCritique = c.2.state.retry_count + 1 ∧ c.2.state.retry_count ≤ 1

/-- Clock/step-list effect of one node execution (every node except
`preprocess` and the `done` sink): the clock counter does not decrease, and
the step list is either untouched or extended by a single entry stamped with
the clock value at entry. -/
def TimeShape (e : Env) (x x' : Exec) : Prop :=
  x.tick ≤ x'.tick ∧
    (x'.state.processing_steps = x.state.processing_steps ∨
      ∃ info : StepInfo, info.timestamp = e.clock x.tick ∧ x.tick < x'.tick ∧
        x'.state.processing_steps = x.state.processing_steps ++ [info])

/-- Timestamp invariant: recorded timestamps are chained non-decreasingly and
all lie below the clock value of the next read. -/
def TimeInv (e : Env) (c : Node × Exec) : Prop :=
  List.Chain' (fun a b : StepInfo => a.timestamp ≤ b.timestamp)
      c.2.state.processing_steps ∧
    ∀ a ∈ c.2.state.processing_steps, a.timestamp ≤ e.clock c.2.tick

/-- Terminal-step invariant: once the run is `done`, the last recorded entry
is the Finalize record (step 8, status `"completed"`). -/
def DoneInv (c : Node × Exec) : Prop :=
  c.1 = .done →
    ∃ l ts, c.2.state.processing_steps =
      l ++ [{ step := 8, message := "Complete", timestamp := ts,
              status := "completed" }]

/-- A concrete environment: constant clock, empty corpus, all collaborators
succeed, the critique agent never requests improvement. -/
def baseEnv : Env :=
  { clock := fun _ => 0, statsCount := .ok 0,
    intentOutcome := .ok ("general", 1, []),
    visionOutcome := .ok "", ocrOutcome := .ok "", sttOutcome := .ok "",
    docOutcome := .ok "", researchOutcome := fun _ => .ok "findings",
    compareOutcome := .ok "", retrieveOutcome := .ok "",
    summarizeOutcome := fun _ => .ok ("summary", []),
    critiqueOutcome := fun _ => .ok (8, false),
    ttsOutcome := .ok none }

/-- Like `baseEnv`, but the first critique pass reports
`needs_improvement = true`. -/
def retryEnv : Env :=
  { baseEnv with critiqueOutcome := fun i => .ok (3, i == 0) }

/-- Like `baseEnv`, but intent classification raises. -/
def errEnv : Env :=
  { baseEnv with intentOutcome := .error "llm down" }

/-- C1: `_route_after_intent` implements exactly the claimed priority order:
multimodal input types win regardless of intent; then `compare`; then
`retrieve` for the four retrieval intents when the corpus statistics report a
positive document count; otherwise `research`. -/
theorem C1_route_after_intent_cases (s : AgentState) (stats : VectorStats) :
    routeAfterIntentNode s stats =
      (if s.input_type ∈ ["image", "audio", "document"] then
        Node.multimodal_processing
      else if s.intent = "compare" then Node.compare
      else if s.intent ∈ ["summarize", "research", "explain", "analyze"] ∧
          0 < stats.total_documents then Node.retrieve
      else Node.research) := by
  unfold routeAfterIntentNode route_after_intent followEdge intentEdge
  by_cases h1 : s.input_type ∈ ["image", "audio", "document"] <;>
    by_cases h2 : s.intent = "compare" <;>
      by_cases h3 : s.intent ∈ ["summarize", "research", "explain", "analyze"] <;>
        by_cases h4 : 0 < stats.total_documents <;>
          simp [h1, h2, h3, h4, Nat.pos_iff_ne_zero]

/-- C3 (counterexample): the routing layer is NOT a pure function of the
`WorkflowState` snapshot alone. First, `_route_after_intent` consults the
vector store (a collaborator): on one and the same snapshot it returns
`research` when the corpus is empty and `retrieve` when it is not. Second,
`_handle_critique_result` mutates the snapshot: with
`needs_improvement = true` and `retry_count = 0` it writes `retry_count := 1`
into the state it was given. -/
theorem C3_routing_not_pure_counterexample :
    (route_after_intent
        { query := "q", session_id := "s", input_type := "text",
          file_path := none, enable_tts := false, intent := "research",
          confidence := 0, entities := [], context := [],
          research_content := "", comparison_result := "", vision_result := "",
          ocr_result := "", transcription := "", retrieved_content := "",
          summary := "", key_points := [], quality_score := 0,
          needs_improvement := false, retry_count := 0, final_result := none,
          audio_file := none, processing_steps := [], start_time := 0,
          current_step := 0 }
        { total_documents := 0, collection_name := "c" } = "research" ∧
      route_after_intent
        { query := "q", session_id := "s", input_type := "text",
          file_path := none, enable_tts := false, intent := "research",
          confidence := 0, entities := [], context := [],
          research_content := "", comparison_result := "", vision_result := "",
          ocr_result := "", transcription := "", retrieved_content := "",
          summary := "", key_points := [], quality_score := 0,
          needs_improvement := false, retry_count := 0, final_result := none,
          audio_file := none, processing_steps := [], start_time := 0,
          current_step := 0 }
        { total_documents := 1, collection_name := "c" } = "retrieve") ∧
    (handle_critique_result
        { query := "q", session_id := "s", input_type := "text",
          file_path := none, enable_tts := false, intent := "research",
          confidence := 0, entities := [], context := [],
          research_content := "", comparison_result := "", vision_result := "",
          ocr_result := "", transcription := "", retrieved_content := "",
          summary := "", key_points := [], quality_score := 0,
          needs_improvement := true, retry_count := 0, final_result := none,
          audio_file := none, processing_steps := [], start_time := 0,
          current_step := 0 }).2 ≠
      { query := "q", session_id := "s", input_type := "text",
        file_path := none, enable_tts := false, intent := "research",
        confidence := 0, entities := [], context := [],
        research_content := "", comparison_result := "", vision_result := "",
        ocr_result := "", transcription := "", retrieved_content := "",
        summary := "", key_points := [], quality_score := 0,
        needs_improvement := true, retry_count := 0, final_result := none,
        audio_file := none, processing_steps := [], start_time := 0,
        current_step := 0 } := by
  refine ⟨⟨?_, ?_⟩, ?_⟩ <;> decide

/-- C3 (amended): the routing functions are deterministic and free of clock
reads and randomness, but `_route_after_intent` additionally depends on the
collaborator-supplied corpus statistics (only through whether the document
count is positive), `_handle_critique_result` mutates the state — though it
changes nothing besides `retry_count`, and its label and update are determined
by the snapshot — and `_should_critique` is a genuinely pure function of the
snapshot (it depends only on `retry_count` and `enable_tts`). -/
theorem C3_routing_dependencies :
    (∀ s : AgentState, ∀ st st' : VectorStats,
      (0 < st.total_documents ↔ 0 < st'.total_documents) →
        route_after_intent s st = route_after_intent s st') ∧
    (∀ s : AgentState,
      (handle_critique_result s).2 =
        { s with retry_count := (handle_critique_result s).2.retry_count }) ∧
    (∀ s s' : AgentState, s.retry_count = s'.retry_count →
      s.enable_tts = s'.enable_tts → should_critique s = should_critique s') := by
  refine ⟨?_, ?_, ?_⟩
  · intro s st st' h
    unfold route_after_intent
    by_cases h4 : 0 < st.total_documents <;>
      simp_all [Nat.pos_iff_ne_zero]
  · intro s
    unfold handle_critique_result
    split
    · rfl
    · split <;> rfl
  · intro s s' h1 h2
    unfold should_critique
    rw [h1, h2]

/-- Closed witness for `C3_routing_dependencies`. -/
theorem C3_routing_dependencies_witness :
    route_after_intent
        { query := "", session_id := "", input_type := "text",
          file_path := none, enable_tts := false, intent := "explain",
          confidence := 0, entities := [], context := [],
          research_content := "", comparison_result := "", vision_result := "",
          ocr_result := "", transcription := "", retrieved_content := "",
          summary := "", key_points := [], quality_score := 0,
          needs_improvement := false, retry_count := 0, final_result := none,
          audio_file := none, processing_steps := [], start_time := 0,
          current_step := 0 }
        { total_documents := 1, collection_name := "a" } =
      route_after_intent
        { query := "", session_id := "", input_type := "text",
          file_path := none, enable_tts := false, intent := "explain",
          confidence := 0, entities := [], context := [],
          research_content := "", comparison_result := "", vision_result := "",
          ocr_result := "", transcription := "", retrieved_content := "",
          summary := "", key_points := [], quality_score := 0,
          needs_improvement := false, retry_count := 0, final_result := none,
          audio_file := none, processing_steps := [], start_time := 0,
          current_step := 0 }
        { total_documents := 2, collection_name := "b" } :=
  C3_routing_dependencies.1 _ _ _ (by decide)

/-- Looking up a key after `cancel_session`'s status-rewriting map: the
cancelled id's entry gets `status := "cancelled"`, every other id is
untouched. -/
theorem findSession_map_cancel (sessions : Sessions) (sid k : String) :
    findSession (sessions.map (fun p =>
        (p.1, if p.1 = sid then { p.2 with status := "cancelled" }
              else p.2))) k =
      (if k = sid then
        (findSession sessions k).map
          (fun e => { e with status := "cancelled" })
      else findSession sessions k) := by
  induction sessions with
  | nil => simp [findSession]
  | cons p t ih =>
    obtain ⟨a, e⟩ := p
    by_cases ha : a = sid
    · subst ha
      by_cases hk : k = a
      · subst hk
        simp [findSession, ih]
      · simp [findSession, hk, ih]
    · by_cases hk : k = a
      · subst hk
        simp [findSession, ha, ih]
      · simp [findSession, ha, hk, ih]

/-- C8: on a session id absent from the registry, `get_session_status`
(both in `langgraph_mcp.py` and `mcp.py`) and `cancel_session` return the
`{"error": "Session not found"}` indicator value — embedded as total
functions, they return rather than raise — and cancellation of an unknown id
leaves the registry unchanged. -/
theorem C8_unknown_session_not_found (sessions : Sessions) (sid : String)
    (h : findSession sessions sid = none) :
    LangGraphMCP.get_session_status sessions sid =
        .errorIndicator "Session not found" ∧
      MultiAgentControlPlane.get_session_status sessions sid =
        .errorIndicator "Session not found" ∧
      MultiAgentControlPlane.cancel_session sessions sid =
        (sessions, .errorIndicator "Session not found") := by
  unfold LangGraphMCP.get_session_status MultiAgentControlPlane.get_session_status
    MultiAgentControlPlane.cancel_session
  rw [h]
  exact ⟨rfl, rfl, rfl⟩

/-- Closed witness for `C8_unknown_session_not_found` on an empty registry. -/
theorem C8_unknown_session_not_found_witness :
    findSession ([] : Sessions) "nope" = none ∧
      LangGraphMCP.get_session_status ([] : Sessions) "nope" =
        .errorIndicator "Session not found" :=
  ⟨rfl, (C8_unknown_session_not_found ([] : Sessions) "nope" rfl).1⟩

/-- C9: cancelling a registered session rewrites exactly its `status` field to
`"cancelled"` (the record-update form expresses that `start_time`, `steps`,
`current_step`, `result` and `error` are retained unchanged), leaves every
other session's entry untouched, and a subsequent `get_session_status` reports
the cancelled entry with its previously recorded steps and start time. -/
theorem C9_cancel_only_sets_status (sessions : Sessions) (sid : String)
    (entry : SessionEntry) (h : findSession sessions sid = some entry) :
    (MultiAgentControlPlane.cancel_session sessions sid).2 =
        .message "Session cancelled" ∧
      findSession (MultiAgentControlPlane.cancel_session sessions sid).1 sid =
        some { entry with status := "cancelled" } ∧
      (∀ k, k ≠ sid →
        findSession (MultiAgentControlPlane.cancel_session sessions sid).1 k =
          findSession sessions k) ∧
      MultiAgentControlPlane.get_session_status
          (MultiAgentControlPlane.cancel_session sessions sid).1 sid =
        .status { entry with status := "cancelled" } := by
  unfold MultiAgentControlPlane.cancel_session
    MultiAgentControlPlane.get_session_status
  rw [h]
  refine ⟨rfl, ?_, ?_, ?_⟩
  · rw [findSession_map_cancel, if_pos rfl, h]
    rfl
  · intro k hk
    rw [findSession_map_cancel, if_neg hk]
  · rw [findSession_map_cancel, if_pos rfl, h]
    rfl

/-- Closed witness for `C9_cancel_only_sets_status` on a one-entry registry. -/
theorem C9_cancel_only_sets_status_witness :
    findSession
        ([("sess",
          { status := "processing", start_time := 0,
            steps := [{ step := 1, message := "m", timestamp := 0,
                        status := "active" }],
            current_step := 1, result := none, error := none })] : Sessions)
        "sess" =
      some
        { status := "processing", start_time := 0,
          steps := [{ step := 1, message := "m", timestamp := 0,
                      status := "active" }],
          current_step := 1, result := none, error := none } ∧
    MultiAgentControlPlane.get_session_status
        (MultiAgentControlPlane.cancel_session
          ([("sess",
            { status := "processing", start_time := 0,
              steps := [{ step := 1, message := "m", timestamp := 0,
                          status := "active" }],
              current_step := 1, result := none, error := none })] : Sessions)
          "sess").1 "sess" =
      .status
        { status := "cancelled", start_time := 0,
          steps := [{ step := 1, message := "m", timestamp := 0,
                      status := "active" }],
          current_step := 1, result := none, error := none } :=
  ⟨by decide,
    (C9_cancel_only_sets_status
      ([("sess",
        { status := "processing", start_time := 0,
          steps := [{ step := 1, message := "m", timestamp := 0,
                      status := "active" }],
          current_step := 1, result := none, error := none })] : Sessions)
      "sess"
      { status := "processing", start_time := 0,
        steps := [{ step := 1, message := "m", timestamp := 0,
                    status := "active" }],
        current_step := 1, result := none, error := none }
      (by decide)).2.2.2⟩

/-- The `_route_after_intent` only emits the four branch labels. -/
theorem route_next_mem (s : AgentState) (stats : VectorStats) :
    followEdge intentEdge (route_after_intent s stats) =
        Node.multimodal_processing ∨
      followEdge intentEdge (route_after_intent s stats) = Node.compare ∨
      followEdge intentEdge (route_after_intent s stats) = Node.retrieve ∨
      followEdge intentEdge (route_after_intent s stats) = Node.research := by
  unfold route_after_intent followEdge intentEdge
  split_ifs <;> simp

/-- Below the critique-attempt cap, `_should_critique` picks `critique`. -/
theorem should_critique_below_cap (s : AgentState) (h : s.retry_count < 2) :
    should_critique s = "critique" := by
  unfold should_critique
  rw [if_pos h]

/-- The `_handle_critique_result` on a first-pass improvement request. -/
theorem handle_retry_case (s : AgentState) (h1 : s.needs_improvement = true)
    (h2 : s.retry_count < 1) :
    handle_critique_result s =
      ("retry", { s with retry_count := s.retry_count + 1 }) := by
  unfold handle_critique_result
  rw [if_pos ⟨h1, h2⟩]

/-- The `_handle_critique_result` in every non-retry case: the state is returned
untouched and the label is `tts`/`finalize` by `enable_tts`. -/
theorem handle_exit_case (s : AgentState)
    (h : ¬(s.needs_improvement = true ∧ s.retry_count < 1)) :
    handle_critique_result s =
      ((if s.enable_tts then "tts" else "finalize"), s) := by
  unfold handle_critique_result
  rw [if_neg h]
  by_cases ht : s.enable_tts = true
  · rw [if_pos ht, if_pos ht]
  · rw [if_neg ht, if_neg ht]

/-- Bookkeeping effect of `_update_step`: everything except
`processing_steps`, `current_step` and the clock counter is untouched, and
the step list is extended. -/
theorem updateStep_book (e : Env) (x : Exec) (m : String) (n : Nat) :
    (updateStep e x m n).state.retry_count = x.state.retry_count ∧
      (updateStep e x m n).nCritique = x.nCritique ∧
      ∃ t, (updateStep e x m n).state.processing_steps =
        x.state.processing_steps ++ t :=
  ⟨rfl, rfl, _, rfl⟩

/-- Bookkeeping effect of `_classify_intent`. -/
theorem classifyIntentNode_book (e : Env) (x : Exec) :
    (classifyIntentNode e x).state.retry_count = x.state.retry_count ∧
      (classifyIntentNode e x).state.enable_tts = x.state.enable_tts ∧
      (classifyIntentNode e x).state.input_type = x.state.input_type ∧
      (classifyIntentNode e x).nCritique = x.nCritique ∧
      (classifyIntentNode e x).contentWrites = x.contentWrites ∧
      ∃ t, (classifyIntentNode e x).state.processing_steps =
        x.state.processing_steps ++ t := by
  unfold classifyIntentNode updateStep
  cases e.intentOutcome <;> exact ⟨rfl, rfl, rfl, rfl, rfl, _, rfl⟩

/-- Bookkeeping effect of `_preprocess_input`: resets `retry_count` to 0 and
`processing_steps` to `[]`. -/
theorem preprocessNode_book (e : Env) (x : Exec) :
    (preprocessNode e x).state.retry_count = 0 ∧
      (preprocessNode e x).state.enable_tts = x.state.enable_tts ∧
      (preprocessNode e x).nCritique = x.nCritique ∧
      (preprocessNode e x).contentWrites = x.contentWrites ∧
      (preprocessNode e x).state.processing_steps = [] := by
  cases hfp : x.state.file_path <;>
    simp only [preprocessNode, updateStep, hfp] <;>
      (try split_ifs) <;> simp

/-- Bookkeeping effect of `_research`. -/
theorem researchNode_book (e : Env) (x : Exec) :
    (researchNode e x).state.retry_count = x.state.retry_count ∧
      (researchNode e x).state.enable_tts = x.state.enable_tts ∧
      (researchNode e x).state.intent = x.state.intent ∧
      (researchNode e x).state.entities = x.state.entities ∧
      (researchNode e x).state.query = x.state.query ∧
      (researchNode e x).nCritique = x.nCritique ∧
      ∃ t, (researchNode e x).state.processing_steps =
        x.state.processing_steps ++ t := by
  simp only [researchNode, updateStep]
  cases e.researchOutcome x.nResearch <;>
    exact ⟨rfl, rfl, rfl, rfl, rfl, rfl, _, rfl⟩

/-- Bookkeeping effect of `_compare`. -/
theorem compareNode_book (e : Env) (x : Exec) :
    (compareNode e x).state.retry_count = x.state.retry_count ∧
      (compareNode e x).state.enable_tts = x.state.enable_tts ∧
      (compareNode e x).nCritique = x.nCritique ∧
      ∃ t, (compareNode e x).state.processing_steps =
        x.state.processing_steps ++ t := by
  unfold compareNode updateStep
  cases e.compareOutcome <;> exact ⟨rfl, rfl, rfl, _, rfl⟩

/-- Bookkeeping effect of `_retrieve`. -/
theorem retrieveNode_book (e : Env) (x : Exec) :
    (retrieveNode e x).state.retry_count = x.state.retry_count ∧
      (retrieveNode e x).state.enable_tts = x.state.enable_tts ∧
      (retrieveNode e x).nCritique = x.nCritique ∧
      ∃ t, (retrieveNode e x).state.processing_steps =
        x.state.processing_steps ++ t := by
  unfold retrieveNode updateStep
  cases e.retrieveOutcome <;> exact ⟨rfl, rfl, rfl, _, rfl⟩

/-- Bookkeeping effect of `_process_multimodal`. -/
theorem processMultimodalNode_book (e : Env) (x : Exec) :
    (processMultimodalNode e x).state.retry_count = x.state.retry_count ∧
      (processMultimodalNode e x).state.enable_tts = x.state.enable_tts ∧
      (processMultimodalNode e x).nCritique = x.nCritique ∧
      ∃ t, (processMultimodalNode e x).state.processing_steps =
        x.state.processing_steps ++ t := by
  simp only [processMultimodalNode, updateStep]
  by_cases h1 : x.state.input_type = "image"
  · simp only [if_pos h1]
    cases e.visionOutcome <;> cases e.ocrOutcome <;>
      (and_intros <;> first | trivial | exact ⟨_, rfl⟩)
  · simp only [if_neg h1]
    by_cases h2 : x.state.input_type = "audio"
    · simp only [if_pos h2]
      cases e.sttOutcome <;>
        (and_intros <;> first | trivial | exact ⟨_, rfl⟩)
    · simp only [if_neg h2]
      by_cases h3 : x.state.input_type = "document"
      · simp only [if_pos h3]
        cases e.docOutcome <;>
          (and_intros <;> first | trivial | exact ⟨_, rfl⟩)
      · simp only [if_neg h3]
        and_intros <;> first | trivial | exact ⟨[], by simp⟩

/-- Bookkeeping effect of `_summarize`. -/
theorem summarizeNode_book (e : Env) (x : Exec) :
    (summarizeNode e x).state.retry_count = x.state.retry_count ∧
      (summarizeNode e x).state.enable_tts = x.state.enable_tts ∧
      (summarizeNode e x).state.intent = x.state.intent ∧
      (summarizeNode e x).state.entities = x.state.entities ∧
      (summarizeNode e x).state.query = x.state.query ∧
      (summarizeNode e x).nCritique = x.nCritique ∧
      (summarizeNode e x).contentWrites = x.contentWrites ∧
      ∃ t, (summarizeNode e x).state.processing_steps =
        x.state.processing_steps ++ t := by
  simp only [summarizeNode, updateStep]
  cases e.summarizeOutcome x.nSummarize <;>
    exact ⟨rfl, rfl, rfl, rfl, rfl, rfl, rfl, _, rfl⟩

/-- Bookkeeping effect of `_critique`: increments the critique invocation
counter, stores the (possibly degraded) quality verdict, touches nothing
else. -/
theorem critiqueNode_book (e : Env) (x : Exec) :
    (critiqueNode e x).state.retry_count = x.state.retry_count ∧
      (critiqueNode e x).state.enable_tts = x.state.enable_tts ∧
      (critiqueNode e x).state.intent = x.state.intent ∧
      (critiqueNode e x).state.entities = x.state.entities ∧
      (critiqueNode e x).state.query = x.state.query ∧
      (critiqueNode e x).nCritique = x.nCritique + 1 ∧
      (critiqueNode e x).state.needs_improvement =
        effectiveNeedsImprovement (e.critiqueOutcome x.nCritique) ∧
      ∃ t, (critiqueNode e x).state.processing_steps =
        x.state.processing_steps ++ t := by
  simp only [critiqueNode, updateStep, effectiveNeedsImprovement]
  cases e.critiqueOutcome x.nCritique <;>
    exact ⟨rfl, rfl, rfl, rfl, rfl, rfl, rfl, _, rfl⟩

/-- Bookkeeping effect of `_text_to_speech`. -/
theorem textToSpeechNode_book (e : Env) (x : Exec) :
    (textToSpeechNode e x).state.retry_count = x.state.retry_count ∧
      (textToSpeechNode e x).state.enable_tts = x.state.enable_tts ∧
      (textToSpeechNode e x).nCritique = x.nCritique ∧
      ∃ t, (textToSpeechNode e x).state.processing_steps =
        x.state.processing_steps ++ t := by
  simp only [textToSpeechNode, updateStep]
  split_ifs <;>
    first
      | exact ⟨rfl, rfl, rfl, [], by simp⟩
      | (cases h : e.ttsOutcome <;> simp only [h] <;>
          (and_intros <;> first | trivial | exact ⟨_, rfl⟩))

/-- Bookkeeping effect of `_finalize_result`. -/
theorem finalizeNode_book (e : Env) (x : Exec) :
    (finalizeNode e x).state.retry_count = x.state.retry_count ∧
      (finalizeNode e x).state.enable_tts = x.state.enable_tts ∧
      (finalizeNode e x).nCritique = x.nCritique ∧
      ∃ t, (finalizeNode e x).state.processing_steps =
        x.state.processing_steps ++ t :=
  ⟨rfl, rfl, rfl, _, rfl⟩

/-- Frame of `_handle_critique_result` on the state: only `retry_count` can
change. -/
theorem handle_critique_result_frame (s : AgentState) :
    (handle_critique_result s).2 =
      { s with retry_count := (handle_critique_result s).2.retry_count } := by
  unfold handle_critique_result
  split
  · rfl
  · split <;> rfl

/-- The `_handle_critique_result` either keeps `retry_count` or, when it is still
below the retry limit, increments it by one. -/
theorem handle_retry_cases (s : AgentState) :
    (handle_critique_result s).2.retry_count = s.retry_count ∨
      (s.retry_count < 1 ∧
        (handle_critique_result s).2.retry_count = s.retry_count + 1) := by
  unfold handle_critique_result
  split
  · next h => exact Or.inr ⟨h.2, rfl⟩
  · split <;> exact Or.inl rfl

/-- The summarize conditional edge always lands on critique, tts or
finalize. -/
theorem summarize_next_cases (s : AgentState) :
    followEdge summarizeEdge (should_critique s) = Node.critique ∨
      followEdge summarizeEdge (should_critique s) = Node.tts ∨
      followEdge summarizeEdge (should_critique s) = Node.finalize := by
  unfold should_critique
  split_ifs <;> simp [followEdge, summarizeEdge]

/-- The critique conditional edge always lands on research, tts or
finalize. -/
theorem critique_next_cases (s : AgentState) :
    followEdge critiqueEdge (handle_critique_result s).1 = Node.research ∨
      followEdge critiqueEdge (handle_critique_result s).1 = Node.tts ∨
      followEdge critiqueEdge (handle_critique_result s).1 = Node.finalize := by
  unfold handle_critique_result
  split
  · simp [followEdge, critiqueEdge]
  · split <;> simp [followEdge, critiqueEdge]

/-- State fields `_handle_critique_result` never touches. -/
theorem handle_state_fields (s : AgentState) :
    (handle_critique_result s).2.processing_steps = s.processing_steps ∧
      (handle_critique_result s).2.enable_tts = s.enable_tts ∧
      (handle_critique_result s).2.intent = s.intent ∧
      (handle_critique_result s).2.entities = s.entities ∧
      (handle_critique_result s).2.query = s.query := by
  unfold handle_critique_result
  split
  · exact ⟨rfl, rfl, rfl, rfl, rfl⟩
  · split <;> exact ⟨rfl, rfl, rfl, rfl, rfl⟩

/-- No edge of the graph returns to `preprocess`. -/
theorem step_not_preprocess (e : Env) (c : Node × Exec) :
    (stepConfig e c).1 ≠ Node.preprocess := by
  obtain ⟨n, x⟩ := c
  cases n
  case intent_classification =>
    simp only [stepConfig]
    rcases route_next_mem (classifyIntentNode e x).state
        (VectorStore.get_stats "documents" e.statsCount) with h | h | h | h <;>
      simp [h]
  case summarize =>
    simp only [stepConfig]
    rcases summarize_next_cases (summarizeNode e x).state with h | h | h <;>
      simp [h]
  case critique =>
    simp only [stepConfig]
    rcases critique_next_cases (critiqueNode e x).state with h | h | h <;>
      simp [h]
  all_goals simp [stepConfig, followEdge, ttsEdge, should_finalize]

/-- Away from `preprocess`, one engine step only ever appends to
`processing_steps`. -/
theorem step_steps_append (e : Env) (c : Node × Exec)
    (h : c.1 ≠ Node.preprocess) :
    ∃ t, (stepConfig e c).2.state.processing_steps =
      c.2.state.processing_steps ++ t := by
  obtain ⟨n, x⟩ := c
  cases n
  case preprocess => exact absurd rfl h
  case intent_classification =>
    simpa using (classifyIntentNode_book e x).2.2.2.2.2
  case multimodal_processing =>
    simpa using (processMultimodalNode_book e x).2.2.2
  case research => simpa using (researchNode_book e x).2.2.2.2.2.2
  case compare => simpa using (compareNode_book e x).2.2.2
  case retrieve => simpa using (retrieveNode_book e x).2.2.2
  case summarize => simpa using (summarizeNode_book e x).2.2.2.2.2.2.2
  case critique =>
    obtain ⟨t, ht⟩ := (critiqueNode_book e x).2.2.2.2.2.2.2
    refine ⟨t, ?_⟩
    simp only [stepConfig]
    rw [(handle_state_fields (critiqueNode e x).state).1, ht]
  case tts => simpa using (textToSpeechNode_book e x).2.2.2
  case finalize => simpa using (finalizeNode_book e x).2.2.2
  case done => exact ⟨[], by simp [stepConfig]⟩

/-- One engine step bumps the critique-invocation counter exactly when the
executed node is `critique`. -/
theorem step_nCritique (e : Env) (c : Node × Exec) :
    (stepConfig e c).2.nCritique =
      c.2.nCritique + (if c.1 = Node.critique then 1 else 0) := by
  obtain ⟨n, x⟩ := c
  cases n
  case intent_classification =>
    simpa using (classifyIntentNode_book e x).2.2.2.1
  case multimodal_processing =>
    simpa using (processMultimodalNode_book e x).2.2.1
  case research => simpa using (researchNode_book e x).2.2.2.2.2.1
  case compare => simpa using (compareNode_book e x).2.2.1
  case retrieve => simpa using (retrieveNode_book e x).2.2.1
  case summarize => simpa using (summarizeNode_book e x).2.2.2.2.2.1
  case critique =>
    simp only [stepConfig, if_pos]
    simpa using (critiqueNode_book e x).2.2.2.2.2.1
  case tts => simpa using (textToSpeechNode_book e x).2.2.1
  case finalize => simpa using (finalizeNode_book e x).2.2.1
  case preprocess => simpa using (preprocessNode_book e x).2.2.1
  case done => simp [stepConfig]

/-- Away from the initial reset in `preprocess` (where the counter is already
0 on entry), `retry_count` never decreases across an engine step. -/
theorem step_retry_mono (e : Env) (c : Node × Exec)
    (h0 : c.1 = Node.preprocess → c.2.state.retry_count = 0) :
    c.2.state.retry_count ≤ (stepConfig e c).2.state.retry_count := by
  obtain ⟨n, x⟩ := c
  cases n
  case preprocess =>
    have hb := (preprocessNode_book e x).1
    simp only [stepConfig]
    rw [hb, h0 rfl]
  case intent_classification =>
    simp only [stepConfig]
    rw [(classifyIntentNode_book e x).1]
  case multimodal_processing =>
    simp only [stepConfig]
    rw [(processMultimodalNode_book e x).1]
  case research =>
    simp only [stepConfig]
    rw [(researchNode_book e x).1]
  case compare =>
    simp only [stepConfig]
    rw [(compareNode_book e x).1]
  case retrieve =>
    simp only [stepConfig]
    rw [(retrieveNode_book e x).1]
  case summarize =>
    simp only [stepConfig]
    rw [(summarizeNode_book e x).1]
  case critique =>
    have hc := (critiqueNode_book e x).1
    simp only [stepConfig]
    rcases handle_retry_cases (critiqueNode e x).state with h | ⟨_, h⟩ <;>
      rw [h, hc]
    exact Nat.le_succ _
  case tts =>
    simp only [stepConfig]
    rw [(textToSpeechNode_book e x).1]
  case finalize =>
    simp only [stepConfig]
    rw [(finalizeNode_book e x).1]
  case done => simp [stepConfig]

/-- Preservation of the engine invariant along one step. -/
theorem EngineInv_step (e : Env) (c : Node × Exec) (h : EngineInv c) :
    EngineInv (stepConfig e c) := by
  obtain ⟨n, x⟩ := c
  cases n
  case preprocess =>
    obtain ⟨_, hn⟩ := h
    have hn' : x.nCritique = 0 := hn
    have hb := preprocessNode_book e x
    simp only [stepConfig]
    exact ⟨hb.1, by rw [hb.2.2.1]; exact hn'⟩
  case intent_classification =>
    obtain ⟨hr, hn⟩ := h
    have hr' : x.state.retry_count = 0 := hr
    have hn' : x.nCritique = 0 := hn
    have hb := classifyIntentNode_book e x
    simp only [stepConfig]
    rcases route_next_mem (classifyIntentNode e x).state
        (VectorStore.get_stats "documents" e.statsCount) with
        hroute | hroute | hroute | hroute <;>
      rw [hroute] <;> simp [EngineInv, hb.1, hb.2.2.2.1, hr', hn']
  case multimodal_processing =>
    obtain ⟨hr, hn⟩ := h
    have hr' : x.state.retry_count = 0 := hr
    have hn' : x.nCritique = 0 := hn
    have hb := processMultimodalNode_book e x
    simp only [stepConfig]
    simp [EngineInv, hb.1, hb.2.2.1, hr', hn']
  case compare =>
    obtain ⟨hr, hn⟩ := h
    have hr' : x.state.retry_count = 0 := hr
    have hn' : x.nCritique = 0 := hn
    have hb := compareNode_book e x
    simp only [stepConfig]
    simp [EngineInv, hb.1, hb.2.2.1, hr', hn']
  case retrieve =>
    obtain ⟨hr, hn⟩ := h
    have hr' : x.state.retry_count = 0 := hr
    have hn' : x.nCritique = 0 := hn
    have hb := retrieveNode_book e x
    simp only [stepConfig]
    simp [EngineInv, hb.1, hb.2.2.1, hr', hn']
  case research =>
    obtain ⟨hn, hr⟩ := h
    have hn' : x.nCritique = x.state.retry_count := hn
    have hr' : x.state.retry_count ≤ 1 := hr
    have hb := researchNode_book e x
    simp only [stepConfig]
    simp [EngineInv, hb.1, hb.2.2.2.2.2.1, hn', hr']
  case summarize =>
    obtain ⟨hn, hr⟩ := h
    have hn' : x.nCritique = x.state.retry_count := hn
    have hr' : x.state.retry_count ≤ 1 := hr
    have hb := summarizeNode_book e x
    have hcrit : should_critique (summarizeNode e x).state = "critique" := by
      refine should_critique_below_cap _ ?_
      rw [hb.1]
      omega
    simp only [stepConfig]
    rw [hcrit]
    simp [EngineInv, followEdge, summarizeEdge, hb.1, hb.2.2.2.2.2.1, hn', hr']
  case critique =>
    obtain ⟨hn, hr⟩ := h
    have hn' : x.nCritique = x.state.retry_count := hn
    have hr' : x.state.retry_count ≤ 1 := hr
    have hb := critiqueNode_book e x
    have h1 : (critiqueNode e x).state.retry_count = x.state.retry_count :=
      hb.1
    have h2 : (critiqueNode e x).nCritique = x.nCritique + 1 :=
      hb.2.2.2.2.2.1
    simp only [stepConfig]
    by_cases hni : (critiqueNode e x).state.needs_improvement = true ∧
        (critiqueNode e x).state.retry_count < 1
    · have hh := handle_retry_case (critiqueNode e x).state hni.1 hni.2
      rw [hh]
      have h3 : x.state.retry_count = 0 := by
        have := hni.2
        omega
      simp [EngineInv, followEdge, critiqueEdge, h1, h2, h3, hn']
    · have hh := handle_exit_case (critiqueNode e x).state hni
      rw [hh]
      by_cases ht : (critiqueNode e x).state.enable_tts = true <;>
        simp [ht, EngineInv, followEdge, critiqueEdge, h1, h2, hn', hr']
  case tts =>
    obtain ⟨hn, hr⟩ := h
    have hn' : x.nCritique = x.state.retry_count + 1 := hn
    have hr' : x.state.retry_count ≤ 1 := hr
    have hb := textToSpeechNode_book e x
    simp only [stepConfig]
    simp [EngineInv, followEdge, ttsEdge, should_finalize, hb.1, hb.2.2.1,
      hn', hr']
  case finalize =>
    obtain ⟨hn, hr⟩ := h
    have hn' : x.nCritique = x.state.retry_count + 1 := hn
    have hr' : x.state.retry_count ≤ 1 := hr
    have hb := finalizeNode_book e x
    simp only [stepConfig]
    simp [EngineInv, hb.1, hb.2.2.1, hn', hr']
  case done => exact h

/-- The initial configuration satisfies the engine invariant. -/
theorem EngineInv_init (e : Env) (q sid : String) (tts : Bool)
    (fp : Option String) : EngineInv (initConfig e q sid tts fp) :=
  ⟨rfl, rfl⟩

/-- Every reachable configuration satisfies the engine invariant. -/
theorem EngineInv_cfg (e : Env) (q sid : String) (tts : Bool)
    (fp : Option String) (k : Nat) : EngineInv (cfg e q sid tts fp k) := by
  induction k with
  | zero => exact EngineInv_init e q sid tts fp
  | succ k ih =>
    rw [cfg, Function.iterate_succ_apply']
    exact EngineInv_step e _ ih

/-- Unfolding one engine step of a run. -/
theorem cfg_succ (e : Env) (q sid : String) (tts : Bool) (fp : Option String)
    (k : Nat) :
    cfg e q sid tts fp (k + 1) = stepConfig e (cfg e q sid tts fp k) := by
  rw [cfg, cfg, Function.iterate_succ_apply']

/-- The engine invariant bounds `retry_count` by the retry limit 1. -/
theorem EngineInv_retry_le (c : Node × Exec) (h : EngineInv c) :
    c.2.state.retry_count ≤ 1 := by
  obtain ⟨n, x⟩ := c
  cases n <;> (show x.state.retry_count ≤ 1) <;>
    first
      | exact h.2
      | (have h1 : x.state.retry_count = 0 := h.1; omega)

/-- The engine invariant bounds the critique-invocation counter by 2. -/
theorem EngineInv_nCritique_le (c : Node × Exec) (h : EngineInv c) :
    c.2.nCritique ≤ 2 := by
  obtain ⟨n, x⟩ := c
  cases n <;> (show x.nCritique ≤ 2) <;>
    first
      | (have h1 : x.nCritique = 0 := h.2; omega)
      | (have h1 : x.nCritique = x.state.retry_count := h.1
         have h2 : x.state.retry_count ≤ 1 := h.2
         omega)
      | (have h1 : x.nCritique = x.state.retry_count + 1 := h.1
         have h2 : x.state.retry_count ≤ 1 := h.2
         omega)

/-- The critique-invocation counter counts exactly the engine steps that
executed the critique node. -/
theorem nCritique_counts (e : Env) (q sid : String) (tts : Bool)
    (fp : Option String) (k : Nat) :
    (cfg e q sid tts fp k).2.nCritique =
      (List.range k).countP
        (fun j => decide ((cfg e q sid tts fp j).1 = Node.critique)) := by
  induction k with
  | zero => rfl
  | succ k ih =>
    rw [cfg_succ, step_nCritique, ih, List.range_succ, List.countP_append]
    by_cases h : (cfg e q sid tts fp k).1 = Node.critique <;> simp [h]

/-- At the `preprocess` node the invariant pins `retry_count` to 0. -/
theorem EngineInv_pre_retry (c : Node × Exec) (h : EngineInv c)
    (hp : c.1 = Node.preprocess) : c.2.state.retry_count = 0 := by
  obtain ⟨n, x⟩ := c
  cases n
  case preprocess => exact h.1
  all_goals exact absurd hp (by simp)

/-- C6: in every run, `retry_count` is monotonically non-decreasing along the
execution and never exceeds 1, and the critique node executes at most 2 times
(the count of engine steps at the critique node never passes 2). -/
theorem C6_retry_bounded_and_critique_twice (e : Env) (q sid : String)
    (tts : Bool) (fp : Option String) :
    (∀ j k, j ≤ k →
      (cfg e q sid tts fp j).2.state.retry_count ≤
        (cfg e q sid tts fp k).2.state.retry_count) ∧
      (∀ k, (cfg e q sid tts fp k).2.state.retry_count ≤ 1) ∧
      (∀ k, (List.range k).countP
          (fun j => decide ((cfg e q sid tts fp j).1 = Node.critique)) ≤ 2) := by
  have hstep : ∀ m, (cfg e q sid tts fp m).2.state.retry_count ≤
      (cfg e q sid tts fp (m + 1)).2.state.retry_count := by
    intro m
    rw [cfg_succ]
    exact step_retry_mono e _
      (EngineInv_pre_retry _ (EngineInv_cfg e q sid tts fp m))
  refine ⟨?_, ?_, ?_⟩
  · intro j k hjk
    induction hjk with
    | refl => exact le_rfl
    | step h ih => exact le_trans ih (hstep _)
  · intro k
    exact EngineInv_retry_le _ (EngineInv_cfg e q sid tts fp k)
  · intro k
    rw [← nCritique_counts]
    exact EngineInv_nCritique_le _ (EngineInv_cfg e q sid tts fp k)

/-- Every node execution preserves `enable_tts`. -/
theorem step_enable_tts (e : Env) (c : Node × Exec) :
    (stepConfig e c).2.state.enable_tts = c.2.state.enable_tts := by
  obtain ⟨n, x⟩ := c
  cases n
  case preprocess => simpa using (preprocessNode_book e x).2.1
  case intent_classification => simpa using (classifyIntentNode_book e x).2.1
  case multimodal_processing =>
    simpa using (processMultimodalNode_book e x).2.1
  case research => simpa using (researchNode_book e x).2.1
  case compare => simpa using (compareNode_book e x).2.1
  case retrieve => simpa using (retrieveNode_book e x).2.1
  case summarize => simpa using (summarizeNode_book e x).2.1
  case critique =>
    show (handle_critique_result (critiqueNode e x).state).2.enable_tts =
      x.state.enable_tts
    rw [(handle_state_fields (critiqueNode e x).state).2.1,
      (critiqueNode_book e x).2.1]
  case tts => simpa using (textToSpeechNode_book e x).2.1
  case finalize => simpa using (finalizeNode_book e x).2.1
  case done => rfl

/-- The `enable_tts` keeps the caller-supplied value throughout a run. -/
theorem enable_tts_cfg (e : Env) (q sid : String) (tts : Bool)
    (fp : Option String) (k : Nat) :
    (cfg e q sid tts fp k).2.state.enable_tts = tts := by
  induction k with
  | zero => rfl
  | succ k ih => rw [cfg_succ, step_enable_tts]; exact ih

/-- Under the engine invariant, the step out of `summarize` always goes to
`critique` (the retry counter is below the critique-attempt cap 2, so the
`tts`/`finalize` branches of `_should_critique` never fire). -/
theorem summarize_next_critique (e : Env) (c : Node × Exec)
    (hinv : EngineInv c) (hn : c.1 = Node.summarize) :
    should_critique (summarizeNode e c.2).state = "critique" ∧
      (stepConfig e c).1 = Node.critique := by
  obtain ⟨n, x⟩ := c
  have hn' : n = Node.summarize := hn
  subst hn'
  obtain ⟨_, hr⟩ := hinv
  have hr' : x.state.retry_count ≤ 1 := hr
  have hcrit : should_critique (summarizeNode e x).state = "critique" := by
    refine should_critique_below_cap _ ?_
    rw [(summarizeNode_book e x).1]
    omega
  refine ⟨hcrit, ?_⟩
  show (followEdge summarizeEdge
    (should_critique (summarizeNode e x).state)) = Node.critique
  rw [hcrit]
  rfl

/-- The step out of `critique` when the stored verdict asks for improvement
while the retry budget is unspent: loop to `research` with `retry_count`
incremented, `intent`/`entities`/`query` untouched. -/
theorem critique_step_retry (e : Env) (c : Node × Exec)
    (hn : c.1 = Node.critique)
    (hni : effectiveNeedsImprovement (e.critiqueOutcome c.2.nCritique) = true)
    (hr : c.2.state.retry_count = 0) :
    (stepConfig e c).1 = Node.research ∧
      (stepConfig e c).2.state.retry_count = 1 ∧
      (stepConfig e c).2.state.intent = c.2.state.intent ∧
      (stepConfig e c).2.state.entities = c.2.state.entities ∧
      (stepConfig e c).2.state.query = c.2.state.query := by
  obtain ⟨n, x⟩ := c
  have hn' : n = Node.critique := hn
  subst hn'
  have hb := critiqueNode_book e x
  have hni' : (critiqueNode e x).state.needs_improvement = true := by
    rw [hb.2.2.2.2.2.2.1]
    exact hni
  have hr0 : (critiqueNode e x).state.retry_count = 0 := by
    rw [hb.1]; exact hr
  have hh := handle_retry_case (critiqueNode e x).state hni' (by omega)
  constructor
  · show (followEdge critiqueEdge
      (handle_critique_result (critiqueNode e x).state).1) = Node.research
    rw [hh]
    rfl
  refine ⟨?_, ?_, ?_, ?_⟩ <;>
    show _ = _
  · show (handle_critique_result (critiqueNode e x).state).2.retry_count = 1
    rw [hh]
    simp [hr0]
  · show (handle_critique_result (critiqueNode e x).state).2.intent =
      x.state.intent
    rw [(handle_state_fields (critiqueNode e x).state).2.2.1, hb.2.2.1]
  · show (handle_critique_result (critiqueNode e x).state).2.entities =
      x.state.entities
    rw [(handle_state_fields (critiqueNode e x).state).2.2.2.1, hb.2.2.2.1]
  · show (handle_critique_result (critiqueNode e x).state).2.query =
      x.state.query
    rw [(handle_state_fields (critiqueNode e x).state).2.2.2.2, hb.2.2.2.2.1]

/-- The step out of `critique` once the retry budget is spent: regardless of
the verdict, exit to `tts` when `enable_tts` and to `finalize` otherwise. -/
theorem critique_step_exit (e : Env) (c : Node × Exec)
    (hn : c.1 = Node.critique) (hr : 1 ≤ c.2.state.retry_count) :
    (stepConfig e c).1 =
        (if c.2.state.enable_tts then Node.tts else Node.finalize) ∧
      (stepConfig e c).2.state.retry_count = c.2.state.retry_count := by
  obtain ⟨n, x⟩ := c
  have hn' : n = Node.critique := hn
  subst hn'
  have hb := critiqueNode_book e x
  have hr1 : 1 ≤ (critiqueNode e x).state.retry_count := by
    rw [hb.1]; exact hr
  have hh := handle_exit_case (critiqueNode e x).state (by omega)
  constructor
  · show (followEdge critiqueEdge
      (handle_critique_result (critiqueNode e x).state).1) = _
    rw [hh]
    rw [show (critiqueNode e x).state.enable_tts = x.state.enable_tts from
      hb.2.1]
    by_cases ht : x.state.enable_tts = true <;> simp [ht, followEdge,
      critiqueEdge]
  · show (handle_critique_result (critiqueNode e x).state).2.retry_count =
      x.state.retry_count
    rw [hh]
    exact hb.1

/-- C10: whenever a run is at the `summarize` node, `retry_count` is at most
1, hence strictly below the critique-attempt cap 2, so `_should_critique`
returns `"critique"` on the state it is given — its `tts` and `finalize`
branches are dead code — and the next executed node is always `critique`. -/
theorem C10_summarize_always_critiqued (e : Env) (q sid : String) (tts : Bool)
    (fp : Option String) (k : Nat)
    (h : (cfg e q sid tts fp k).1 = Node.summarize) :
    (cfg e q sid tts fp k).2.state.retry_count ≤ 1 ∧
      should_critique (summarizeNode e (cfg e q sid tts fp k).2).state =
        "critique" ∧
      (cfg e q sid tts fp (k + 1)).1 = Node.critique := by
  have hinv := EngineInv_cfg e q sid tts fp k
  have hsc := summarize_next_critique e _ hinv h
  refine ⟨EngineInv_retry_le _ hinv, hsc.1, ?_⟩
  rw [cfg_succ]
  exact hsc.2

/-- Closed witness for `C10_summarize_always_critiqued` at step 3 of a
concrete text-query run. -/
theorem C10_summarize_always_critiqued_witness :
    (cfg baseEnv "q" "s" false none 3).1 = Node.summarize ∧
      ((cfg baseEnv "q" "s" false none 3).2.state.retry_count ≤ 1 ∧
        should_critique (summarizeNode baseEnv
          (cfg baseEnv "q" "s" false none 3).2).state = "critique" ∧
        (cfg baseEnv "q" "s" false none 4).1 = Node.critique) :=
  ⟨by decide,
    C10_summarize_always_critiqued baseEnv "q" "s" false none 3 (by decide)⟩

/-- If the intent edge routes to `multimodal_processing`, the routed state's
input type is one of the three multimodal kinds. -/
theorem route_multimodal_imp (s : AgentState) (st : VectorStats)
    (h : followEdge intentEdge (route_after_intent s st) =
      Node.multimodal_processing) :
    s.input_type ∈ ["image", "audio", "document"] := by
  by_contra hne
  unfold route_after_intent followEdge intentEdge at h
  rw [if_neg hne] at h
  split_ifs at h <;> simp_all

/-- The `_research` always logs a write to `research_content`. -/
theorem researchNode_writes (e : Env) (x : Exec) :
    (researchNode e x).contentWrites =
      x.contentWrites ++ ["research_content"] := by
  simp only [researchNode, updateStep]
  cases e.researchOutcome x.nResearch <;> rfl

/-- The `_compare` always logs writes to `comparison_result` and
`research_content`. -/
theorem compareNode_writes (e : Env) (x : Exec) :
    (compareNode e x).contentWrites =
      x.contentWrites ++ ["comparison_result", "research_content"] := by
  simp only [compareNode, updateStep]
  cases e.compareOutcome <;> rfl

/-- The `_retrieve` always logs writes to `retrieved_content` and
`research_content`. -/
theorem retrieveNode_writes (e : Env) (x : Exec) :
    (retrieveNode e x).contentWrites =
      x.contentWrites ++ ["retrieved_content", "research_content"] := by
  simp only [retrieveNode, updateStep]
  cases e.retrieveOutcome <;> rfl

/-- On a multimodal input type, `_process_multimodal` logs at least one
content-field write. -/
theorem processMultimodalNode_writes (e : Env) (x : Exec)
    (h : x.state.input_type ∈ ["image", "audio", "document"]) :
    ∃ l, l ≠ [] ∧
      (processMultimodalNode e x).contentWrites = x.contentWrites ++ l := by
  simp only [processMultimodalNode, updateStep]
  simp only [List.mem_cons, List.mem_singleton, List.not_mem_nil,
    or_false] at h
  rcases h with h | h | h
  · simp only [h]
    cases e.visionOutcome <;> cases e.ocrOutcome <;> simp
  · simp only [h]
    cases e.sttOutcome <;> simp
  · simp only [h]
    cases e.docOutcome <;> simp

/-- C7: in every run, the first three executed nodes are `preprocess`,
`intent_classification` and exactly one of the four content-producing
branches; the `summarize` node first executes at step 3, no content-field
write happens before the branch runs, and the branch logs at least one
content-field write before `summarize` executes. -/
theorem C7_one_branch_before_first_summarize (e : Env) (q sid : String)
    (tts : Bool) (fp : Option String) :
    (cfg e q sid tts fp 0).1 = Node.preprocess ∧
      (cfg e q sid tts fp 1).1 = Node.intent_classification ∧
      ((cfg e q sid tts fp 2).1 = Node.multimodal_processing ∨
        (cfg e q sid tts fp 2).1 = Node.compare ∨
        (cfg e q sid tts fp 2).1 = Node.retrieve ∨
        (cfg e q sid tts fp 2).1 = Node.research) ∧
      (cfg e q sid tts fp 3).1 = Node.summarize ∧
      (∀ k, k < 3 → (cfg e q sid tts fp k).1 ≠ Node.summarize) ∧
      (cfg e q sid tts fp 2).2.contentWrites = [] ∧
      (cfg e q sid tts fp 3).2.contentWrites ≠ [] := by
  have h1 : cfg e q sid tts fp 1 =
      (Node.intent_classification,
        preprocessNode e (initConfig e q sid tts fp).2) := by
    rw [cfg_succ]
    rfl
  have h2 : cfg e q sid tts fp 2 =
      (followEdge intentEdge (route_after_intent
          (classifyIntentNode e
            (preprocessNode e (initConfig e q sid tts fp).2)).state
          (VectorStore.get_stats "documents" e.statsCount)),
        classifyIntentNode e
          (preprocessNode e (initConfig e q sid tts fp).2)) := by
    rw [cfg_succ, h1]
    rfl
  have hcw2 : (cfg e q sid tts fp 2).2.contentWrites = [] := by
    rw [h2]
    show (classifyIntentNode e
      (preprocessNode e (initConfig e q sid tts fp).2)).contentWrites = []
    rw [(classifyIntentNode_book e _).2.2.2.2.1,
      (preprocessNode_book e _).2.2.2.1]
    rfl
  rcases route_next_mem (classifyIntentNode e
      (preprocessNode e (initConfig e q sid tts fp).2)).state
      (VectorStore.get_stats "documents" e.statsCount) with hb | hb | hb | hb
  case inl =>
    have h3 : cfg e q sid tts fp 3 =
        (Node.summarize, processMultimodalNode e (classifyIntentNode e
          (preprocessNode e (initConfig e q sid tts fp).2))) := by
      rw [cfg_succ, h2, hb]
      rfl
    have hmm := route_multimodal_imp _ _ hb
    obtain ⟨l, hl, hw⟩ := processMultimodalNode_writes e _ hmm
    refine ⟨rfl, by rw [h1], Or.inl (by rw [h2]; exact hb), by rw [h3],
      ?_, hcw2, ?_⟩
    · intro k hk
      interval_cases k
      · intro hcontra
        exact absurd hcontra (by simp [cfg, initConfig])
      · rw [h1]
        simp
      · rw [h2, hb]
        simp
    · rw [h3]
      show (processMultimodalNode e _).contentWrites ≠ []
      rw [hw]
      have : (classifyIntentNode e
          (preprocessNode e (initConfig e q sid tts fp).2)).contentWrites =
          [] := by rw [h2] at hcw2; exact hcw2
      rw [this]
      simpa using hl
  case inr.inl =>
    have h3 : cfg e q sid tts fp 3 =
        (Node.summarize, compareNode e (classifyIntentNode e
          (preprocessNode e (initConfig e q sid tts fp).2))) := by
      rw [cfg_succ, h2, hb]
      rfl
    refine ⟨rfl, by rw [h1], Or.inr (Or.inl (by rw [h2]; exact hb)),
      by rw [h3], ?_, hcw2, ?_⟩
    · intro k hk
      interval_cases k
      · intro hcontra
        exact absurd hcontra (by simp [cfg, initConfig])
      · rw [h1]
        simp
      · rw [h2, hb]
        simp
    · rw [h3]
      show (compareNode e _).contentWrites ≠ []
      rw [compareNode_writes]
      simp
  case inr.inr.inl =>
    have h3 : cfg e q sid tts fp 3 =
        (Node.summarize, retrieveNode e (classifyIntentNode e
          (preprocessNode e (initConfig e q sid tts fp).2))) := by
      rw [cfg_succ, h2, hb]
      rfl
    refine ⟨rfl, by rw [h1], Or.inr (Or.inr (Or.inl (by rw [h2]; exact hb))),
      by rw [h3], ?_, hcw2, ?_⟩
    · intro k hk
      interval_cases k
      · intro hcontra
        exact absurd hcontra (by simp [cfg, initConfig])
      · rw [h1]
        simp
      · rw [h2, hb]
        simp
    · rw [h3]
      show (retrieveNode e _).contentWrites ≠ []
      rw [retrieveNode_writes]
      simp
  case inr.inr.inr =>
    have h3 : cfg e q sid tts fp 3 =
        (Node.summarize, researchNode e (classifyIntentNode e
          (preprocessNode e (initConfig e q sid tts fp).2))) := by
      rw [cfg_succ, h2, hb]
      rfl
    refine ⟨rfl, by rw [h1], Or.inr (Or.inr (Or.inr (by rw [h2]; exact hb))),
      by rw [h3], ?_, hcw2, ?_⟩
    · intro k hk
      interval_cases k
      · intro hcontra
        exact absurd hcontra (by simp [cfg, initConfig])
      · rw [h1]
        simp
      · rw [h2, hb]
        simp
    · rw [h3]
      show (researchNode e _).contentWrites ≠ []
      rw [researchNode_writes]
      simp

/-- The `done` is absorbing. -/
theorem step_done (e : Env) (c : Node × Exec) (h : c.1 = Node.done) :
    (stepConfig e c).1 = Node.done := by
  obtain ⟨n, x⟩ := c
  have h' : n = Node.done := h
  subst h'
  rfl

/-- The termination measure strictly decreases on every non-terminal step. -/
theorem bound_decrease (e : Env) (c : Node × Exec) (h : c.1 ≠ Node.done) :
    nodeBound (stepConfig e c).1 (stepConfig e c).2.state.retry_count <
      nodeBound c.1 c.2.state.retry_count := by
  obtain ⟨n, x⟩ := c
  cases n
  case done => exact absurd rfl h
  case preprocess => simp [stepConfig, nodeBound]
  case intent_classification =>
    show nodeBound (followEdge intentEdge _)
      (classifyIntentNode e x).state.retry_count < 9
    rcases route_next_mem (classifyIntentNode e x).state
        (VectorStore.get_stats "documents" e.statsCount) with
        hb | hb | hb | hb <;>
      rw [hb] <;>
      by_cases hr : (classifyIntentNode e x).state.retry_count = 0 <;>
        simp [nodeBound, hr]
  case multimodal_processing =>
    show nodeBound Node.summarize
      (processMultimodalNode e x).state.retry_count <
      nodeBound Node.multimodal_processing x.state.retry_count
    rw [(processMultimodalNode_book e x).1]
    by_cases hr : x.state.retry_count = 0 <;> simp [nodeBound, hr]
  case research =>
    show nodeBound Node.summarize (researchNode e x).state.retry_count <
      nodeBound Node.research x.state.retry_count
    rw [(researchNode_book e x).1]
    by_cases hr : x.state.retry_count = 0 <;> simp [nodeBound, hr]
  case compare =>
    show nodeBound Node.summarize (compareNode e x).state.retry_count <
      nodeBound Node.compare x.state.retry_count
    rw [(compareNode_book e x).1]
    by_cases hr : x.state.retry_count = 0 <;> simp [nodeBound, hr]
  case retrieve =>
    show nodeBound Node.summarize (retrieveNode e x).state.retry_count <
      nodeBound Node.retrieve x.state.retry_count
    rw [(retrieveNode_book e x).1]
    by_cases hr : x.state.retry_count = 0 <;> simp [nodeBound, hr]
  case summarize =>
    show nodeBound (followEdge summarizeEdge _)
      (summarizeNode e x).state.retry_count <
      nodeBound Node.summarize x.state.retry_count
    rcases summarize_next_cases (summarizeNode e x).state with hb | hb | hb <;>
      rw [hb, (summarizeNode_book e x).1] <;>
      by_cases hr : x.state.retry_count = 0 <;> simp [nodeBound, hr]
  case critique =>
    have h1 : (critiqueNode e x).state.retry_count = x.state.retry_count :=
      (critiqueNode_book e x).1
    by_cases hni : (critiqueNode e x).state.needs_improvement = true ∧
        (critiqueNode e x).state.retry_count < 1
    · have hh := handle_retry_case (critiqueNode e x).state hni.1 hni.2
      have hr0 : x.state.retry_count = 0 := by
        have := hni.2
        omega
      show nodeBound (followEdge critiqueEdge
          (handle_critique_result (critiqueNode e x).state).1)
          (handle_critique_result (critiqueNode e x).state).2.retry_count <
        nodeBound Node.critique x.state.retry_count
      rw [hh]
      simp [followEdge, critiqueEdge, nodeBound, h1, hr0]
    · have hh := handle_exit_case (critiqueNode e x).state hni
      show nodeBound (followEdge critiqueEdge
          (handle_critique_result (critiqueNode e x).state).1)
          (handle_critique_result (critiqueNode e x).state).2.retry_count <
        nodeBound Node.critique x.state.retry_count
      rw [hh]
      by_cases ht : (critiqueNode e x).state.enable_tts = true <;>
        by_cases hr : x.state.retry_count = 0 <;>
          simp [ht, followEdge, critiqueEdge, nodeBound, hr]
  case tts =>
    show nodeBound (followEdge ttsEdge
      (should_finalize (textToSpeechNode e x).state))
      (textToSpeechNode e x).state.retry_count <
      nodeBound Node.tts x.state.retry_count
    simp [followEdge, ttsEdge, should_finalize, nodeBound]
  case finalize => simp [stepConfig, nodeBound]

/-- A non-terminal node has positive termination measure. -/
theorem nodeBound_pos (n : Node) (r : Nat) (h : n ≠ Node.done) :
    0 < nodeBound n r := by
  cases n <;>
    first
      | exact absurd rfl h
      | (by_cases hr : r = 0 <;> simp [nodeBound, hr])

/-- Either the run has terminated after `k` steps, or the termination measure
has decreased by at least `k`. -/
theorem cfg_done_or_bound (e : Env) (q sid : String) (tts : Bool)
    (fp : Option String) (k : Nat) :
    (cfg e q sid tts fp k).1 = Node.done ∨
      nodeBound (cfg e q sid tts fp k).1
        (cfg e q sid tts fp k).2.state.retry_count + k ≤ 10 := by
  induction k with
  | zero =>
    right
    show nodeBound Node.preprocess _ + 0 ≤ 10
    simp [nodeBound]
  | succ k ih =>
    by_cases hdk : (cfg e q sid tts fp k).1 = Node.done
    · left
      rw [cfg_succ]
      exact step_done e _ hdk
    · rcases ih with hdone | hb
      · exact absurd hdone hdk
      · right
        have hdec := bound_decrease e _ hdk
        rw [cfg_succ]
        omega

/-- Every run is terminal after at most 10 engine steps. -/
theorem cfg_done_10 (e : Env) (q sid : String) (tts : Bool)
    (fp : Option String) : (cfg e q sid tts fp 10).1 = Node.done := by
  rcases cfg_done_or_bound e q sid tts fp 10 with h | h
  · exact h
  · by_contra hne
    have := nodeBound_pos (cfg e q sid tts fp 10).1
      (cfg e q sid tts fp 10).2.state.retry_count hne
    omega

/-- Terminality is preserved from any step on. -/
theorem cfg_done_ge (e : Env) (q sid : String) (tts : Bool)
    (fp : Option String) (m l : Nat) (h : (cfg e q sid tts fp m).1 = Node.done)
    (hml : m ≤ l) : (cfg e q sid tts fp l).1 = Node.done := by
  induction hml with
  | refl => exact h
  | step _ ih =>
    rw [cfg_succ]
    exact step_done e _ ih

/-- The only edges into `done` leave `finalize` (or stay at `done`). -/
theorem step_ne_done (e : Env) (c : Node × Exec) (h1 : c.1 ≠ Node.finalize)
    (h2 : c.1 ≠ Node.done) : (stepConfig e c).1 ≠ Node.done := by
  obtain ⟨n, x⟩ := c
  cases n
  case finalize => exact absurd rfl h1
  case done => exact absurd rfl h2
  case intent_classification =>
    simp only [stepConfig]
    rcases route_next_mem (classifyIntentNode e x).state
        (VectorStore.get_stats "documents" e.statsCount) with h | h | h | h <;>
      simp [h]
  case summarize =>
    simp only [stepConfig]
    rcases summarize_next_cases (summarizeNode e x).state with h | h | h <;>
      simp [h]
  case critique =>
    simp only [stepConfig]
    rcases critique_next_cases (critiqueNode e x).state with h | h | h <;>
      simp [h]
  all_goals simp [stepConfig, followEdge, ttsEdge, should_finalize]

/-- The step record `_finalize_result` appends. -/
theorem finalizeNode_steps (e : Env) (x : Exec) :
    (finalizeNode e x).state.processing_steps =
      x.state.processing_steps ++
        [{ step := 8, message := "Complete", timestamp := e.clock x.tick,
           status := "completed" }] := by
  simp [finalizeNode, updateStep]

/-- Preservation of the terminal-step invariant. -/
theorem DoneInv_step (e : Env) (c : Node × Exec) (h : DoneInv c) :
    DoneInv (stepConfig e c) := by
  obtain ⟨n, x⟩ := c
  cases n
  case finalize =>
    intro _
    exact ⟨x.state.processing_steps, e.clock x.tick, finalizeNode_steps e x⟩
  case done => intro _; exact h rfl
  all_goals
    exact fun hd => absurd hd (step_ne_done e _ (by simp) (by simp))

/-- The terminal-step invariant holds along every run. -/
theorem DoneInv_cfg (e : Env) (q sid : String) (tts : Bool)
    (fp : Option String) (k : Nat) : DoneInv (cfg e q sid tts fp k) := by
  induction k with
  | zero => exact fun h => Node.noConfusion h
  | succ k ih =>
    rw [cfg_succ]
    exact DoneInv_step e _ ih

/-- Time shape of `_classify_intent`. -/
theorem classifyIntentNode_time (e : Env) (x : Exec) :
    TimeShape e x (classifyIntentNode e x) := by
  unfold TimeShape
  simp only [classifyIntentNode, updateStep]
  cases e.intentOutcome <;>
    exact ⟨Nat.le_succ _, Or.inr ⟨_, rfl, Nat.lt_succ_self _, rfl⟩⟩

/-- Time shape of `_research`. -/
theorem researchNode_time (e : Env) (x : Exec) :
    TimeShape e x (researchNode e x) := by
  unfold TimeShape
  simp only [researchNode, updateStep]
  cases e.researchOutcome x.nResearch <;>
    exact ⟨Nat.le_succ _, Or.inr ⟨_, rfl, Nat.lt_succ_self _, rfl⟩⟩

/-- Time shape of `_compare`. -/
theorem compareNode_time (e : Env) (x : Exec) :
    TimeShape e x (compareNode e x) := by
  unfold TimeShape
  simp only [compareNode, updateStep]
  cases e.compareOutcome <;>
    exact ⟨Nat.le_succ _, Or.inr ⟨_, rfl, Nat.lt_succ_self _, rfl⟩⟩

/-- Time shape of `_retrieve`. -/
theorem retrieveNode_time (e : Env) (x : Exec) :
    TimeShape e x (retrieveNode e x) := by
  unfold TimeShape
  simp only [retrieveNode, updateStep]
  cases e.retrieveOutcome <;>
    exact ⟨Nat.le_succ _, Or.inr ⟨_, rfl, Nat.lt_succ_self _, rfl⟩⟩

/-- Time shape of `_summarize`. -/
theorem summarizeNode_time (e : Env) (x : Exec) :
    TimeShape e x (summarizeNode e x) := by
  unfold TimeShape
  simp only [summarizeNode, updateStep]
  cases e.summarizeOutcome x.nSummarize <;>
    exact ⟨Nat.le_succ _, Or.inr ⟨_, rfl, Nat.lt_succ_self _, rfl⟩⟩

/-- Time shape of `_critique`. -/
theorem critiqueNode_time (e : Env) (x : Exec) :
    TimeShape e x (critiqueNode e x) := by
  unfold TimeShape
  simp only [critiqueNode, updateStep]
  cases e.critiqueOutcome x.nCritique <;>
    exact ⟨Nat.le_succ _, Or.inr ⟨_, rfl, Nat.lt_succ_self _, rfl⟩⟩

/-- Time shape of `_process_multimodal`. -/
theorem processMultimodalNode_time (e : Env) (x : Exec) :
    TimeShape e x (processMultimodalNode e x) := by
  unfold TimeShape
  simp only [processMultimodalNode, updateStep]
  by_cases h1 : x.state.input_type = "image"
  · simp only [if_pos h1]
    cases e.visionOutcome <;> cases e.ocrOutcome <;>
      exact ⟨Nat.le_succ _, Or.inr ⟨_, rfl, Nat.lt_succ_self _, rfl⟩⟩
  · simp only [if_neg h1]
    by_cases h2 : x.state.input_type = "audio"
    · simp only [if_pos h2]
      cases e.sttOutcome <;>
        exact ⟨Nat.le_succ _, Or.inr ⟨_, rfl, Nat.lt_succ_self _, rfl⟩⟩
    · simp only [if_neg h2]
      by_cases h3 : x.state.input_type = "document"
      · simp only [if_pos h3]
        cases e.docOutcome <;>
          exact ⟨Nat.le_succ _, Or.inr ⟨_, rfl, Nat.lt_succ_self _, rfl⟩⟩
      · simp only [if_neg h3]
        exact ⟨le_rfl, Or.inl (by simp)⟩

/-- Time shape of `_text_to_speech`. -/
theorem textToSpeechNode_time (e : Env) (x : Exec) :
    TimeShape e x (textToSpeechNode e x) := by
  unfold TimeShape
  simp only [textToSpeechNode, updateStep]
  split_ifs <;>
    first
      | exact ⟨le_rfl, Or.inl (by simp)⟩
      | (cases h : e.ttsOutcome <;> simp only [h] <;>
          (refine ⟨Nat.le_succ _, Or.inr ⟨_, ?_, Nat.lt_succ_self _, rfl⟩⟩
           rfl))

/-- Time shape of `_finalize_result` (it reads the clock twice). -/
theorem finalizeNode_time (e : Env) (x : Exec) :
    TimeShape e x (finalizeNode e x) := by
  refine ⟨?_, Or.inr ⟨_, ?_, ?_, finalizeNode_steps e x⟩⟩
  · show x.tick ≤ x.tick + 1 + 1
    omega
  · rfl
  · show x.tick < x.tick + 1 + 1
    omega

/-- Transporting the timestamp invariant across a `TimeShape` step, for a
monotone clock. -/
theorem TimeInv_of_TimeShape (e : Env)
    (hm : ∀ i j : Nat, i ≤ j → e.clock i ≤ e.clock j) (x x' : Exec)
    (hs : TimeShape e x x')
    (h1 : List.Chain' (fun a b : StepInfo => a.timestamp ≤ b.timestamp)
      x.state.processing_steps)
    (h2 : ∀ a ∈ x.state.processing_steps, a.timestamp ≤ e.clock x.tick) :
    List.Chain' (fun a b : StepInfo => a.timestamp ≤ b.timestamp)
        x'.state.processing_steps ∧
      ∀ a ∈ x'.state.processing_steps, a.timestamp ≤ e.clock x'.tick := by
  obtain ⟨hle, hcase⟩ := hs
  rcases hcase with hsame | ⟨info, hts, hlt, happ⟩
  · rw [hsame]
    exact ⟨h1, fun a ha => le_trans (h2 a ha) (hm _ _ hle)⟩
  · rw [happ]
    constructor
    · rw [List.chain'_append]
      refine ⟨h1, List.chain'_singleton info, ?_⟩
      intro a ha b hb
      obtain ⟨hne, heq⟩ := List.mem_getLast?_eq_getLast ha
      have hamem : a ∈ x.state.processing_steps := heq ▸ List.getLast_mem hne
      have hb' : info = b := by simpa using hb
      subst hb'
      rw [hts]
      exact h2 a hamem
    · intro a ha
      rcases List.mem_append.1 ha with ha | ha
      · exact le_trans (h2 a ha) (hm _ _ hle)
      · have ha' : a = info := by simpa using ha
        subst ha'
        rw [hts]
        exact hm _ _ (le_of_lt hlt)

/-- Preservation of the timestamp invariant along one engine step, for a
monotone clock. -/
theorem TimeInv_step (e : Env)
    (hm : ∀ i j : Nat, i ≤ j → e.clock i ≤ e.clock j) (c : Node × Exec)
    (h : TimeInv e c) : TimeInv e (stepConfig e c) := by
  obtain ⟨n, x⟩ := c
  obtain ⟨h1, h2⟩ := h
  have h1' : List.Chain' (fun a b : StepInfo => a.timestamp ≤ b.timestamp)
      x.state.processing_steps := h1
  have h2' : ∀ a ∈ x.state.processing_steps, a.timestamp ≤ e.clock x.tick :=
    h2
  cases n
  case preprocess =>
    constructor
    · show List.Chain' _ (preprocessNode e x).state.processing_steps
      rw [(preprocessNode_book e x).2.2.2.2]
      exact List.chain'_nil
    · show ∀ a ∈ (preprocessNode e x).state.processing_steps, _
      rw [(preprocessNode_book e x).2.2.2.2]
      intro a ha
      exact absurd ha (List.not_mem_nil a)
  case intent_classification =>
    exact TimeInv_of_TimeShape e hm x _ (classifyIntentNode_time e x) h1' h2'
  case multimodal_processing =>
    exact TimeInv_of_TimeShape e hm x _ (processMultimodalNode_time e x)
      h1' h2'
  case research =>
    exact TimeInv_of_TimeShape e hm x _ (researchNode_time e x) h1' h2'
  case compare =>
    exact TimeInv_of_TimeShape e hm x _ (compareNode_time e x) h1' h2'
  case retrieve =>
    exact TimeInv_of_TimeShape e hm x _ (retrieveNode_time e x) h1' h2'
  case summarize =>
    exact TimeInv_of_TimeShape e hm x _ (summarizeNode_time e x) h1' h2'
  case critique =>
    have hc := TimeInv_of_TimeShape e hm x _ (critiqueNode_time e x) h1' h2'
    have hsteps := (handle_state_fields (critiqueNode e x).state).1
    constructor
    · show List.Chain' _
        (handle_critique_result (critiqueNode e x).state).2.processing_steps
      rw [hsteps]
      exact hc.1
    · show ∀ a ∈
        (handle_critique_result (critiqueNode e x).state).2.processing_steps,
        a.timestamp ≤ e.clock (critiqueNode e x).tick
      rw [hsteps]
      exact hc.2
  case tts =>
    exact TimeInv_of_TimeShape e hm x _ (textToSpeechNode_time e x) h1' h2'
  case finalize =>
    exact TimeInv_of_TimeShape e hm x _ (finalizeNode_time e x) h1' h2'
  case done => exact ⟨h1', fun a ha => h2' a ha⟩

/-- The timestamp invariant holds along every run of a monotone clock. -/
theorem TimeInv_cfg (e : Env)
    (hm : ∀ i j : Nat, i ≤ j → e.clock i ≤ e.clock j) (q sid : String)
    (tts : Bool) (fp : Option String) (k : Nat) :
    TimeInv e (cfg e q sid tts fp k) := by
  induction k with
  | zero =>
    exact ⟨List.chain'_nil, fun a ha => absurd ha (List.not_mem_nil a)⟩
  | succ k ih =>
    rw [cfg_succ]
    exact TimeInv_step e hm _ ih

/-- C4 (amended): `processing_steps` is reset once, inside Preprocess (which
first appends a step-1 entry and then erases the whole list), and is
append-only from then on; with non-decreasing clock reads the recorded
timestamps are non-decreasing; every run terminates within 10 engine steps;
and in the terminal state the final entry is the Finalize record: status
`"completed"` and step number 8 (which in general differs from the number of
recorded entries, and step numbers are not non-decreasing in retried runs —
see the counterexample). -/
theorem C4_steps_amended (e : Env) (q sid : String) (tts : Bool)
    (fp : Option String)
    (hm : ∀ i j : Nat, i ≤ j → e.clock i ≤ e.clock j) :
    (∀ k, 1 ≤ k →
      ∃ t, (cfg e q sid tts fp (k + 1)).2.state.processing_steps =
        (cfg e q sid tts fp k).2.state.processing_steps ++ t) ∧
      (∀ k, List.Chain' (fun a b : StepInfo => a.timestamp ≤ b.timestamp)
        (cfg e q sid tts fp k).2.state.processing_steps) ∧
      (cfg e q sid tts fp 10).1 = Node.done ∧
      (∃ l ts, (cfg e q sid tts fp 10).2.state.processing_steps =
        l ++ [{ step := 8, message := "Complete", timestamp := ts,
                status := "completed" }]) := by
  refine ⟨?_, ?_, cfg_done_10 e q sid tts fp, ?_⟩
  · intro k hk
    rw [cfg_succ]
    refine step_steps_append e _ ?_
    rcases k with _ | m
    · omega
    · rw [cfg_succ]
      exact step_not_preprocess e _
  · intro k
    exact (TimeInv_cfg e hm q sid tts fp k).1
  · exact DoneInv_cfg e q sid tts fp 10 (cfg_done_10 e q sid tts fp)

/-- Closed witness for `C4_steps_amended` with the constant clock. -/
theorem C4_steps_amended_witness :
    (∃ t, (cfg baseEnv "q" "s" false none 2).2.state.processing_steps =
        (cfg baseEnv "q" "s" false none 1).2.state.processing_steps ++ t) ∧
      (cfg baseEnv "q" "s" false none 10).1 = Node.done :=
  ⟨(C4_steps_amended baseEnv "q" "s" false none
      (fun i j _ => le_refl 0)).1 1 (by decide),
    (C4_steps_amended baseEnv "q" "s" false none
      (fun i j _ => le_refl 0)).2.2.1⟩

/-- C4 (counterexample): on concrete runs, (i) `_preprocess_input` appends a
step-1 record and then resets `processing_steps` to `[]`, erasing it — the
list is not append-only; (ii) in a plain text run the terminal entry has step
number 8 while only 5 entries were recorded; (iii) in a run whose first
critique pass requests improvement, the recorded step numbers are
2,4,5,6,4,5,6,8 — not non-decreasing. -/
theorem C4_steps_counterexample :
    ((updateStep baseEnv (initConfig baseEnv "q" "s" false none).2
        "Preprocessing input..." 1).state.processing_steps =
      [{ step := 1, message := "Preprocessing input...", timestamp := 0,
         status := "active" }] ∧
      (preprocessNode baseEnv
          (initConfig baseEnv "q" "s" false none).2).state.processing_steps =
        []) ∧
      ((cfg baseEnv "q" "s" false none 10).2.state.processing_steps.map
          StepInfo.step = [2, 4, 5, 6, 8]) ∧
      ((cfg retryEnv "q" "s" false none 10).2.state.processing_steps.map
          StepInfo.step = [2, 4, 5, 6, 4, 5, 6, 8] ∧
        ¬ List.Chain' (fun a b : StepInfo => a.step ≤ b.step)
          (cfg retryEnv "q" "s" false none 10).2.state.processing_steps) := by
  refine ⟨⟨by decide, by decide⟩, by decide, by decide, ?_⟩
  intro hch
  have h2 : List.Chain' (fun a b : Nat => a ≤ b)
      ((cfg retryEnv "q" "s" false none 10).2.state.processing_steps.map
        StepInfo.step) := (List.chain'_map StepInfo.step).2 hch
  rw [show ((cfg retryEnv "q" "s" false none 10).2.state.processing_steps.map
      StepInfo.step) = [2, 4, 5, 6, 4, 5, 6, 8] from by decide] at h2
  simp [List.chain'_cons] at h2

/-- The first four nodes of every run: preprocess, intent classification, one
content branch, then the first summarize. -/
theorem early_path (e : Env) (q sid : String) (tts : Bool)
    (fp : Option String) :
    (cfg e q sid tts fp 0).1 = Node.preprocess ∧
      (cfg e q sid tts fp 1).1 = Node.intent_classification ∧
      ((cfg e q sid tts fp 2).1 = Node.multimodal_processing ∨
        (cfg e q sid tts fp 2).1 = Node.compare ∨
        (cfg e q sid tts fp 2).1 = Node.retrieve ∨
        (cfg e q sid tts fp 2).1 = Node.research) ∧
      (cfg e q sid tts fp 3).1 = Node.summarize := by
  have h1 : cfg e q sid tts fp 1 =
      (Node.intent_classification,
        preprocessNode e (initConfig e q sid tts fp).2) := by
    rw [cfg_succ]
    rfl
  have h2 : cfg e q sid tts fp 2 =
      (followEdge intentEdge (route_after_intent
          (classifyIntentNode e
            (preprocessNode e (initConfig e q sid tts fp).2)).state
          (VectorStore.get_stats "documents" e.statsCount)),
        classifyIntentNode e
          (preprocessNode e (initConfig e q sid tts fp).2)) := by
    rw [cfg_succ, h1]
    rfl
  refine ⟨rfl, by rw [h1], ?_, ?_⟩ <;>
    rcases route_next_mem (classifyIntentNode e
        (preprocessNode e (initConfig e q sid tts fp).2)).state
        (VectorStore.get_stats "documents" e.statsCount) with hb | hb | hb | hb
  · exact Or.inl (by rw [h2]; exact hb)
  · exact Or.inr (Or.inl (by rw [h2]; exact hb))
  · exact Or.inr (Or.inr (Or.inl (by rw [h2]; exact hb)))
  · exact Or.inr (Or.inr (Or.inr (by rw [h2]; exact hb)))
  all_goals
    rw [cfg_succ, h2, hb]
    rfl

/-- C5: when the first critique pass stores `needs_improvement = true` (with
`retry_count` then 0), the engine loops back to the `research` node — not
`preprocess` — with `retry_count` incremented to 1 and `intent`, `entities`
and `query` unchanged; after the second critique pass it proceeds to `tts`
exactly when `enable_tts` and to `finalize` otherwise, regardless of the
second verdict; and the critique node executes only at steps 4 and 7, so the
forced loop happens exactly once. -/
theorem C5_forced_retry_loop (e : Env) (q sid : String) (tts : Bool)
    (fp : Option String)
    (h : effectiveNeedsImprovement (e.critiqueOutcome 0) = true) :
    (cfg e q sid tts fp 4).1 = Node.critique ∧
      (cfg e q sid tts fp 4).2.state.retry_count = 0 ∧
      (cfg e q sid tts fp 5).1 = Node.research ∧
      (cfg e q sid tts fp 5).2.state.retry_count = 1 ∧
      (cfg e q sid tts fp 5).2.state.intent =
        (cfg e q sid tts fp 4).2.state.intent ∧
      (cfg e q sid tts fp 5).2.state.entities =
        (cfg e q sid tts fp 4).2.state.entities ∧
      (cfg e q sid tts fp 5).2.state.query =
        (cfg e q sid tts fp 4).2.state.query ∧
      (cfg e q sid tts fp 6).1 = Node.summarize ∧
      (cfg e q sid tts fp 7).1 = Node.critique ∧
      (cfg e q sid tts fp 8).1 =
        (if tts then Node.tts else Node.finalize) ∧
      (∀ k, (cfg e q sid tts fp k).1 = Node.critique → k = 4 ∨ k = 7) := by
  obtain ⟨e0, e1, e2, e3⟩ := early_path e q sid tts fp
  have ne0 : (cfg e q sid tts fp 0).1 ≠ Node.critique := by rw [e0]; simp
  have ne1 : (cfg e q sid tts fp 1).1 ≠ Node.critique := by rw [e1]; simp
  have ne2 : (cfg e q sid tts fp 2).1 ≠ Node.critique := by
    rcases e2 with h2 | h2 | h2 | h2 <;> rw [h2] <;> simp
  have ne3 : (cfg e q sid tts fp 3).1 ≠ Node.critique := by rw [e3]; simp
  have hc4 : (cfg e q sid tts fp 4).2.nCritique = 0 := by
    rw [nCritique_counts]
    rw [show List.range 4 = [0, 1, 2, 3] from rfl]
    simp [List.countP_cons, ne0, ne1, ne2, ne3]
  have h4 : (cfg e q sid tts fp 4).1 = Node.critique := by
    rw [cfg_succ]
    exact (summarize_next_critique e _ (EngineInv_cfg e q sid tts fp 3) e3).2
  have hr4 : (cfg e q sid tts fp 4).2.state.retry_count = 0 := by
    rcases hcc : cfg e q sid tts fp 4 with ⟨n4, x4⟩
    have hinv4 := EngineInv_cfg e q sid tts fp 4
    rw [hcc] at h4 hinv4 hc4
    have hn4 : n4 = Node.critique := h4
    subst hn4
    obtain ⟨hnr, _⟩ := hinv4
    have ha : x4.nCritique = x4.state.retry_count := hnr
    have hb : x4.nCritique = 0 := hc4
    show x4.state.retry_count = 0
    omega
  have h5all := critique_step_retry e (cfg e q sid tts fp 4) h4
    (by rw [hc4]; exact h) hr4
  have h5 : (cfg e q sid tts fp 5).1 = Node.research := by
    rw [cfg_succ]; exact h5all.1
  have hr5 : (cfg e q sid tts fp 5).2.state.retry_count = 1 := by
    rw [cfg_succ]
    exact h5all.2.1
  have h6 : (cfg e q sid tts fp 6).1 = Node.summarize := by
    rw [cfg_succ]
    rcases hcc : cfg e q sid tts fp 5 with ⟨n5, x5⟩
    rw [hcc] at h5
    have hn5 : n5 = Node.research := h5
    subst hn5
    rfl
  have hr6 : (cfg e q sid tts fp 6).2.state.retry_count = 1 := by
    rw [cfg_succ]
    rcases hcc : cfg e q sid tts fp 5 with ⟨n5, x5⟩
    rw [hcc] at h5 hr5
    have hn5 : n5 = Node.research := h5
    subst hn5
    show (researchNode e x5).state.retry_count = 1
    rw [(researchNode_book e x5).1]
    exact hr5
  have h7 : (cfg e q sid tts fp 7).1 = Node.critique := by
    rw [cfg_succ]
    exact (summarize_next_critique e _ (EngineInv_cfg e q sid tts fp 6) h6).2
  have hr7 : (cfg e q sid tts fp 7).2.state.retry_count = 1 := by
    rw [cfg_succ]
    rcases hcc : cfg e q sid tts fp 6 with ⟨n6, x6⟩
    rw [hcc] at h6 hr6
    have hn6 : n6 = Node.summarize := h6
    subst hn6
    show (summarizeNode e x6).state.retry_count = 1
    rw [(summarizeNode_book e x6).1]
    exact hr6
  have hexit := critique_step_exit e (cfg e q sid tts fp 7) h7
    (by rw [hr7])
  have h8 : (cfg e q sid tts fp 8).1 =
      (if tts then Node.tts else Node.finalize) := by
    rw [cfg_succ]
    have := hexit.1
    rw [enable_tts_cfg e q sid tts fp 7] at this
    exact this
  refine ⟨h4, hr4, h5, hr5, ?_, ?_, ?_, h6, h7, h8, ?_⟩
  · rw [cfg_succ]; exact h5all.2.2.1
  · rw [cfg_succ]; exact h5all.2.2.2.1
  · rw [cfg_succ]; exact h5all.2.2.2.2
  · intro k hk
    by_contra hne
    push_neg at hne
    obtain ⟨hk4, hk7⟩ := hne
    have hp4 : (decide ((cfg e q sid tts fp 4).1 = Node.critique)) = true :=
      by simp [h4]
    have hp7 : (decide ((cfg e q sid tts fp 7).1 = Node.critique)) = true :=
      by simp [h7]
    have hpk : (decide ((cfg e q sid tts fp k).1 = Node.critique)) = true :=
      by simp [hk]
    have hsub : [4, 7, k] ⊆ (List.range (max k 7 + 1)).filter
        (fun j => decide ((cfg e q sid tts fp j).1 = Node.critique)) := by
      intro a ha
      rw [List.mem_filter]
      simp only [List.mem_cons, List.not_mem_nil, or_false] at ha
      rcases ha with ha | ha | ha <;> subst ha
      · exact ⟨List.mem_range.2 (by omega), hp4⟩
      · exact ⟨List.mem_range.2 (by omega), hp7⟩
      · exact ⟨List.mem_range.2 (by omega), hpk⟩
    have hnodup : ([4, 7, k] : List Nat).Nodup := by
      simp [List.nodup_cons]
      omega
    have hlen := (hnodup.subperm hsub).length_le
    have hcount : ((List.range (max k 7 + 1)).filter
        (fun j => decide ((cfg e q sid tts fp j).1 = Node.critique))).length =
        (List.range (max k 7 + 1)).countP
          (fun j => decide ((cfg e q sid tts fp j).1 = Node.critique)) :=
      (List.countP_eq_length_filter _ _).symm
    have hle2 : (List.range (max k 7 + 1)).countP
        (fun j => decide ((cfg e q sid tts fp j).1 = Node.critique)) ≤ 2 := by
      rw [← nCritique_counts]
      exact EngineInv_nCritique_le _ (EngineInv_cfg e q sid tts fp _)
    simp only [List.length_cons, List.length_nil] at hlen
    omega

/-- Closed witness for `C5_forced_retry_loop` on a concrete run whose first
critique pass requests improvement. -/
theorem C5_forced_retry_loop_witness :
    effectiveNeedsImprovement (retryEnv.critiqueOutcome 0) = true ∧
      (cfg retryEnv "q" "s" false none 5).1 = Node.research ∧
      (cfg retryEnv "q" "s" false none 5).2.state.retry_count = 1 :=
  ⟨by decide,
    (C5_forced_retry_loop retryEnv "q" "s" false none (by decide)).2.2.1,
    (C5_forced_retry_loop retryEnv "q" "s" false none (by decide)).2.2.2.1⟩

/-- Closed witness for `C6_retry_bounded_and_critique_twice` at concrete
step indices. -/
theorem C6_retry_bounded_and_critique_twice_witness :
    (cfg baseEnv "q" "s" false none 2).2.state.retry_count ≤
      (cfg baseEnv "q" "s" false none 7).2.state.retry_count :=
  (C6_retry_bounded_and_critique_twice baseEnv "q" "s" false none).1 2 7
    (by decide)

/-- C2 (counterexample): on a concrete raised exception, both adapters
return the exception — `BaseAgent.execute` marks its status `"error"` and
re-raises, `BaseLangChainAgent.execute` just re-raises — instead of
returning a degraded output. -/
theorem C2_execute_propagates_counterexample :
    (BaseAgent.execute
        { name := "Intent Agent", status := "idle", last_activity := 0 } 1
        (Except.error "boom" : Except String String)).2 =
      Except.error "boom" ∧
      (BaseAgent.execute
          { name := "Intent Agent", status := "idle", last_activity := 0 } 1
          (Except.error "boom" : Except String String)).1.status = "error" ∧
      BaseLangChainAgent.execute
          (Except.error "boom" : Except String String) =
        Except.error "boom" :=
  ⟨rfl, rfl, rfl⟩

/-- C2 (amended): on an internal exception the adapter's `execute` sets the
agent status to `"error"` and RE-RAISES the exception (it does propagate past
the adapter); the degraded-output convention lives one level up, in the
workflow node that called it — e.g. `_classify_intent` absorbs the exception
and writes the fallback intent `"general"`, confidence `0.5` and empty
entities instead of raising. -/
theorem C2_adapter_error_reraises_caller_degrades (a : BaseAgentRec) (t : ℚ)
    (err : String) (e : Env) (x : Exec)
    (hi : e.intentOutcome = Except.error err) :
    (∀ α : Type, BaseAgent.execute a t (Except.error err : Except String α) =
      ({ a with status := "error", last_activity := t }, Except.error err)) ∧
      BaseLangChainAgent.execute (Except.error err : Except String String) =
        Except.error err ∧
      ((classifyIntentNode e x).state.intent = "general" ∧
        (classifyIntentNode e x).state.confidence = 1 / 2 ∧
        (classifyIntentNode e x).state.entities = []) := by
  refine ⟨fun α => rfl, rfl, ?_⟩
  simp only [classifyIntentNode, updateStep, hi]
  exact ⟨trivial, trivial, trivial⟩

/-- Closed witness for `C2_adapter_error_reraises_caller_degrades` on a
concrete failing intent call. -/
theorem C2_adapter_error_reraises_caller_degrades_witness :
    errEnv.intentOutcome = Except.error "llm down" ∧
      (classifyIntentNode errEnv
        (initConfig errEnv "q" "s" false none).2).state.intent = "general" :=
  ⟨rfl,
    (C2_adapter_error_reraises_caller_degrades
        { name := "Intent Agent", status := "idle", last_activity := 0 } 0
        "llm down" errEnv (initConfig errEnv "q" "s" false none).2
        rfl).2.2.1⟩
